import Mathlib

/-!
# rmw_zenoh: schema-driven codec, type-support registry and delivery-layer state

A verification development over a shallow embedding of

* `rmw_zenoh_dynamic_cpp/src/internal/serialization/custom/deserializer_cpp.hpp`
  (the `CppDeserializer` interface; its member functions are defined outside
  the files at hand),
* `rmw_zenoh_pico_dynamic_cpp/include/rmw_zenoh_pico_dynamic_cpp/dynamic_type_support.hpp`,
* `rmw_zenoh_pico_dynamic_cpp/src/rmw_zenoh_pico_dynamic.cpp`
  (`rmw_init`, `rmw_create_subscription`, `rmw_create_publisher`),
* `rmw_zenoh_cpp/include/rmw_zenoh_cpp/zenoh-net-interface-pico.h`
  (return codes of the task starters),
* `rmw_zenoh_cpp/src/impl/pubsub_impl.cpp`.

Bytes are natural numbers; a 4-byte count is read in host (little-endian)
order with every byte reduced modulo 256.
-/

namespace RmwZenoh

set_option autoImplicit false

/-! ## Part 1. Data model of the codec -/

/-- Error taxonomy of the codec. -/
inductive CodecError
  | UnknownTypesupport
  | SchemaCycle
  | UnsupportedFieldKind
  | AllocationFailure
  | TruncatedInput
  | ArrayBoundExceeded
  | RecursionLimitExceeded
  deriving DecidableEq, Repr

/-- Array shape of a field. -/
inductive ArrayShape
  | SCALAR
  | FIXED (n : Nat)
  | BOUNDED (n : Nat)
  | UNBOUNDED
  deriving DecidableEq, Repr

/-- Fixed-width kinds of a field. -/
inductive ScalarKind
  | BOOL | BYTE
  | INT8 | INT16 | INT32 | INT64
  | UINT8 | UINT16 | UINT32 | UINT64
  | FLOAT32 | FLOAT64
  deriving DecidableEq, Repr

/-- Number of bytes a fixed-width kind occupies, in memory and on the wire. -/
def ScalarKind.width : ScalarKind → Nat
  | .BOOL => 1 | .BYTE => 1
  | .INT8 => 1 | .INT16 => 2 | .INT32 => 4 | .INT64 => 8
  | .UINT8 => 1 | .UINT16 => 2 | .UINT32 => 4 | .UINT64 => 8
  | .FLOAT32 => 4 | .FLOAT64 => 8

mutual
/-- Kind of a field; a MESSAGE kind carries the reference to the nested schema. -/
inductive FieldKind
  | scalar (k : ScalarKind)
  | STRING
  | WSTRING
  | MESSAGE (nested : TypeSchema)
/-- One field of a schema: name, kind, array shape, byte offset in the owning instance. -/
inductive FieldDescriptor
  | mk (name : String) (kind : FieldKind) (shape : ArrayShape) (offset : Nat)
/-- Ordered fields (wire order), type name, namespace, in-memory size. -/
inductive TypeSchema
  | mk (fields : List FieldDescriptor) (type_name : String) (type_namespace : String) (size : Nat)
end

/-- Fields of a schema, in wire order. -/
def TypeSchema.fields : TypeSchema → List FieldDescriptor
  | .mk fs _ _ _ => fs

/-- Kind of a field. -/
def FieldDescriptor.kind : FieldDescriptor → FieldKind
  | .mk _ k _ _ => k

/-- Array shape of a field. -/
def FieldDescriptor.shape : FieldDescriptor → ArrayShape
  | .mk _ _ s _ => s

/-- A message instance, field by field.  A fixed-width field holds its in-memory
bytes, a string its code units as raw bytes, an array field its elements. -/
inductive Value
  | scalar (bytes : List Nat)
  | string (bytes : List Nat)
  | array (elems : List Value)
  | message (fields : List Value)

/-- Limits configured for the codec: the ceiling on a decoded UNBOUNDED count
and the recursion-depth ceiling. -/
structure CodecConfig where
  max_unbounded : Nat
  max_depth : Nat

/-- Bytes of one code unit of a STRING (1) or a WSTRING (2). -/
def unitWidth (wide : Bool) : Nat := if wide then 2 else 1

/-- The 4-byte count field, host order (least significant byte first). -/
def encodeCount (n : Nat) : List Nat :=
  [n % 256, n / 256 % 256, n / 65536 % 256, n / 16777216 % 256]

/-- Value of a count field read from the wire. -/
def decodeCount : List Nat → Nat
  | [b0, b1, b2, b3] => b0 % 256 + 256 * (b1 % 256) + 65536 * (b2 % 256) + 16777216 * (b3 % 256)
  | _ => 0

/-! ## Part 2. Deserializer -/

/-- The bytes at `serialized_data` (as far as memory goes) and the length `size`
the caller vouches for. -/
structure Buffer where
  data : Nat → Nat
  size : Nat

/-- Decoder state: read position, every index read so far, and the element
count of every storage allocation made so far. -/
structure Cursor where
  pos : Nat
  reads : List Nat
  allocs : List Nat
  deriving DecidableEq, Repr

/-- Result of a decoding step; the cursor is kept on failure too. -/
inductive Outcome (α : Type)
  | ok (a : α) (c : Cursor)
  | fail (e : CodecError) (c : Cursor)

/-- Cursor after a step. -/
def Outcome.cursor {α : Type} : Outcome α → Cursor
  | .ok _ c => c
  | .fail _ c => c

/-- A decoding step. -/
def Dec (α : Type) : Type := Buffer → Cursor → Outcome α

/-- Step that returns `a` and leaves the cursor alone. -/
def Dec.pure {α : Type} (a : α) : Dec α := fun _ c => .ok a c

/-- Sequencing: the second step runs only when the first succeeded. -/
def Dec.bind {α β : Type} (f : Dec α) (g : α → Dec β) : Dec β := fun b c =>
  match f b c with
  | .ok a c1 => g a b c1
  | .fail e c1 => .fail e c1

/-- Step that fails with `e`. -/
def Dec.fail {α : Type} (e : CodecError) : Dec α := fun _ c => .fail e c

instance : Monad Dec where
  pure := Dec.pure
  bind := Dec.bind

/-- Modelled from the spec: the checked read every decoding step goes through
(the bodies of `CppDeserializer`'s members are not among the files at hand).
`n` bytes are consumed only when at least `n` remain up to `size`; otherwise
the step fails with `TruncatedInput` and touches nothing. -/
def readBytes (n : Nat) : Dec (List Nat) := fun b c =>
  if n ≤ b.size - c.pos then
    .ok ((List.range' c.pos n).map b.data)
      { c with pos := c.pos + n, reads := c.reads ++ List.range' c.pos n }
  else .fail .TruncatedInput c

/-- Record the allocation of storage for `n` elements. -/
def allocate (n : Nat) : Dec Unit := fun _ c =>
  .ok () { c with allocs := c.allocs ++ [n] }

/-- Modelled from the spec: `CppDeserializer::DeserializeSingle<T>`, a
fixed-width copy of `w` bytes. -/
def DeserializeSingle (w : Nat) : Dec Value := do
  let bs ← readBytes w
  pure (.scalar bs)

/-- Modelled from the spec: `CppDeserializer::DeserializeArraySize`, the 4-byte
count field. -/
def DeserializeArraySize : Dec Nat := do
  let bs ← readBytes 4
  pure (decodeCount bs)

/-- Modelled from the spec: a string member, 4-byte element count then the raw
bytes; the bytes are checked against the buffer before storage is taken. -/
def DeserializeString (wide : Bool) : Dec Value := do
  let n ← DeserializeArraySize
  let bs ← readBytes (n * unitWidth wide)
  allocate n
  pure (.string bs)

/-- One element of the given kind; `recur` decodes a nested message. -/
def DeserializeValue (recur : TypeSchema → Dec Value) : FieldKind → Dec Value
  | .scalar k => DeserializeSingle k.width
  | .STRING => DeserializeString false
  | .WSTRING => DeserializeString true
  | .MESSAGE s => recur s

/-- Modelled from the spec: `CppDeserializer::DeserializeArray<T>(member, size, ..)`,
`n` elements back to back. -/
def DeserializeArray (elem : Dec Value) : Nat → Dec (List Value)
  | 0 => pure []
  | n + 1 => do
    let v ← elem
    let vs ← DeserializeArray elem n
    pure (v :: vs)

/-- Modelled from the spec: `CppDeserializer::DeserializeDynamicArray<T>`; the
decoded count is validated against `limit` before storage is allocated and
before it bounds the element loop. -/
def DeserializeDynamicArray (elem : Dec Value) (limit : Nat) : Dec Value := do
  let n ← DeserializeArraySize
  if n > limit then Dec.fail .ArrayBoundExceeded
  else do
    allocate n
    let vs ← DeserializeArray elem n
    pure (.array vs)

/-- Modelled from the spec: `CppDeserializer::Deserialize<T>(member_data, member, ..)`,
dispatch on the array shape of the member. -/
def DeserializeMember (cfg : CodecConfig) (recur : TypeSchema → Dec Value) :
    FieldDescriptor → Dec Value
  | .mk _ kind .SCALAR _ => DeserializeValue recur kind
  | .mk _ kind (.FIXED n) _ => do
    let vs ← DeserializeArray (DeserializeValue recur kind) n
    pure (.array vs)
  | .mk _ kind (.BOUNDED n) _ => DeserializeDynamicArray (DeserializeValue recur kind) n
  | .mk _ kind .UNBOUNDED _ =>
    DeserializeDynamicArray (DeserializeValue recur kind) cfg.max_unbounded

/-- The members of a message in declared order. -/
def DeserializeMembers (cfg : CodecConfig) (recur : TypeSchema → Dec Value) :
    List FieldDescriptor → Dec (List Value)
  | [] => pure []
  | f :: fs => do
    let v ← DeserializeMember cfg recur f
    let vs ← DeserializeMembers cfg recur fs
    pure (v :: vs)

/-- Modelled from the spec: `CppDeserializer::DeserializeMessage`; `depth` is
what is left of the recursion-depth ceiling. -/
def DeserializeMessage (cfg : CodecConfig) : Nat → TypeSchema → Dec Value
  | 0, _ => Dec.fail .RecursionLimitExceeded
  | depth + 1, s => do
    let vs ← DeserializeMembers cfg (DeserializeMessage cfg depth) s.fields
    pure (.message vs)

/-- Modelled from the spec: `CppDeserializer::Deserialize(message, serialized_data, size)`,
decoding from index 0 under the schema `members_`. -/
def Deserialize (cfg : CodecConfig) (members_ : TypeSchema) (serialized_data : Nat → Nat)
    (size : Nat) : Outcome Value :=
  DeserializeMessage cfg cfg.max_depth members_ ⟨serialized_data, size⟩ ⟨0, [], []⟩

/-! ## Part 3. Serializer -/

/-- Why a serialization stopped: an error of the codec, or a caller bug the
serializer asserts on (an instance that does not fit its schema). -/
inductive SerializeFault
  | error (e : CodecError)
  | contract_violation
  deriving DecidableEq, Repr

/-- Modelled from the spec: a string member, 4-byte count then the raw bytes.
A count that does not fit the 4-byte field is not truncated silently. -/
def serializeString (wide : Bool) : Value → Except SerializeFault (List Nat)
  | .string bs =>
    if bs.length % unitWidth wide = 0 ∧ bs.length / unitWidth wide < 4294967296 then
      .ok (encodeCount (bs.length / unitWidth wide) ++ bs)
    else .error .contract_violation
  | _ => .error .contract_violation

/-- One element of the given kind; `recur` serializes a nested message. -/
def serializeValue (recur : TypeSchema → Value → Except SerializeFault (List Nat)) :
    FieldKind → Value → Except SerializeFault (List Nat)
  | .scalar k, .scalar bs =>
    if bs.length = k.width then .ok bs else .error .contract_violation
  | .scalar _, _ => .error .contract_violation
  | .STRING, v => serializeString false v
  | .WSTRING, v => serializeString true v
  | .MESSAGE s, v => recur s v

/-- Elements back to back. -/
def serializeArray (elem : Value → Except SerializeFault (List Nat)) :
    List Value → Except SerializeFault (List Nat)
  | [] => .ok []
  | v :: vs =>
    match elem v with
    | .error e => .error e
    | .ok b =>
      match serializeArray elem vs with
      | .error e => .error e
      | .ok bs => .ok (b ++ bs)

/-- A counted array: 4-byte count, then each element. -/
def serializeDynamicArray (elem : Value → Except SerializeFault (List Nat))
    (vs : List Value) : Except SerializeFault (List Nat) :=
  if vs.length < 4294967296 then
    match serializeArray elem vs with
    | .error e => .error e
    | .ok bs => .ok (encodeCount vs.length ++ bs)
  else .error .contract_violation

/-- Modelled from the spec: one field, by array shape. -/
def serializeMember (recur : TypeSchema → Value → Except SerializeFault (List Nat)) :
    FieldDescriptor → Value → Except SerializeFault (List Nat)
  | .mk _ kind .SCALAR _, v => serializeValue recur kind v
  | .mk _ kind (.FIXED n) _, .array vs =>
    if vs.length = n then serializeArray (serializeValue recur kind) vs
    else .error .contract_violation
  | .mk _ kind (.BOUNDED n) _, .array vs =>
    if vs.length ≤ n then serializeDynamicArray (serializeValue recur kind) vs
    else .error .contract_violation
  | .mk _ kind .UNBOUNDED _, .array vs => serializeDynamicArray (serializeValue recur kind) vs
  | _, _ => .error .contract_violation

/-- The fields of a message in declared order. -/
def serializeMembers (recur : TypeSchema → Value → Except SerializeFault (List Nat)) :
    List FieldDescriptor → List Value → Except SerializeFault (List Nat)
  | [], [] => .ok []
  | f :: fs, v :: vs =>
    match serializeMember recur f v with
    | .error e => .error e
    | .ok b =>
      match serializeMembers recur fs vs with
      | .error e => .error e
      | .ok bs => .ok (b ++ bs)
  | _, _ => .error .contract_violation

/-- Modelled from the spec: a message under its schema; `depth` is what is left
of the recursion-depth ceiling. -/
def serializeMessage : Nat → TypeSchema → Value → Except SerializeFault (List Nat)
  | 0, _, _ => .error (.error .RecursionLimitExceeded)
  | depth + 1, s, .message vs => serializeMembers (serializeMessage depth) s.fields vs
  | _ + 1, _, _ => .error .contract_violation

/-- Modelled from the spec: `serialize(schema, instance) → bytes` (the
serializer is not among the files at hand). -/
def serialize (cfg : CodecConfig) (schema : TypeSchema) (instance_ : Value) :
    Except SerializeFault (List Nat) :=
  serializeMessage cfg.max_depth schema instance_

/-- Memory holding exactly the bytes `bs` from index 0 on (zero beyond). -/
def memOf (bs : List Nat) : Nat → Nat := fun i => bs.getD i 0

/-- Whether every UNBOUNDED array of an instance holds at most the configured
maximum of elements (the only limit of the decoder the serializer does not
share). -/
def withinCeilingValue (recur : TypeSchema → Value → Bool) : FieldKind → Value → Bool
  | .MESSAGE s, v => recur s v
  | _, _ => true

/-- Ceiling check of one field. -/
def withinCeilingMember (cfg : CodecConfig) (recur : TypeSchema → Value → Bool) :
    FieldDescriptor → Value → Bool
  | .mk _ kind .SCALAR _, v => withinCeilingValue recur kind v
  | .mk _ kind .UNBOUNDED _, .array vs =>
    decide (vs.length ≤ cfg.max_unbounded) && vs.all (withinCeilingValue recur kind)
  | .mk _ kind _ _, .array vs => vs.all (withinCeilingValue recur kind)
  | _, _ => true

/-- Ceiling check of the fields of a message. -/
def withinCeilingMembers (cfg : CodecConfig) (recur : TypeSchema → Value → Bool) :
    List FieldDescriptor → List Value → Bool
  | f :: fs, v :: vs => withinCeilingMember cfg recur f v && withinCeilingMembers cfg recur fs vs
  | _, _ => true

/-- Ceiling check of a message, to the given nesting depth. -/
def withinCeiling (cfg : CodecConfig) : Nat → TypeSchema → Value → Bool
  | 0, _, _ => true
  | depth + 1, s, .message vs => withinCeilingMembers cfg (withinCeiling cfg depth) s.fields vs
  | _ + 1, _, _ => true

/-! ### Scenario A of the specification -/

/-- Schema with `x:int32`, `s:string` and `a:FIXED(3) of uint8`. -/
def scenarioA_schema : TypeSchema :=
  .mk [ .mk "x" (.scalar .INT32) .SCALAR 0,
        .mk "s" .STRING .SCALAR 8,
        .mk "a" (.scalar .UINT8) (.FIXED 3) 40 ] "A" "" 48

/-- Instance with `x=42`, `s="hi"` and `a=[1,2,3]`. -/
def scenarioA_instance : Value :=
  .message [ .scalar [42, 0, 0, 0], .string [104, 105],
             .array [.scalar [1], .scalar [2], .scalar [3]] ]

/-- Encoding `2A 00 00 00 | 02 00 00 00 68 69 | 01 02 03`. -/
def scenarioA_bytes : List Nat := [42, 0, 0, 0, 2, 0, 0, 0, 104, 105, 1, 2, 3]

/-- Configuration used in the examples: at most 1024 elements, depth 64. -/
def defaultConfig : CodecConfig := ⟨1024, 64⟩

/-! ## Part 4. Type-support registry and `rmw_create_publisher` -/

/-- Constant `eclipse_zenoh_identifier` of identifier.hpp. -/
def eclipse_zenoh_identifier : String := "rmw_zenoh_pico_dynamic_cpp"

/-- Identifier of the introspection-C type support (a constant of rosidl). -/
def rosidl_typesupport_introspection_c__identifier : String :=
  "rosidl_typesupport_introspection_c"

/-- Identifier of the introspection-C++ type support (a constant of rosidl). -/
def rosidl_typesupport_introspection_cpp_typesupport_identifier : String :=
  "rosidl_typesupport_introspection_cpp"

/-- The leading members that the introspection-C and the introspection-C++
`MessageMembers` structs share and that this code reads. -/
structure MessageMembers where
  message_namespace_ : String
  message_name_ : String
  deriving DecidableEq, Repr

/-- Template argument of `_create_type_name<MembersType>`. -/
inductive MembersType
  | rosidl_typesupport_introspection_c__MessageMembers
  | rosidl_typesupport_introspection_cpp_MessageMembers
  deriving DecidableEq, Repr

/-- Modelled from the spec: `using_introspection_c_typesupport`, declared in
dynamic_type_support.hpp and defined elsewhere; the flavor is selected by the
identifier string. -/
def using_introspection_c_typesupport (typesupport_identifier : String) : Bool :=
  typesupport_identifier == rosidl_typesupport_introspection_c__identifier

/-- Modelled from the spec: `using_introspection_cpp_typesupport`, declared in
dynamic_type_support.hpp and defined elsewhere; the flavor is selected by the
identifier string. -/
def using_introspection_cpp_typesupport (typesupport_identifier : String) : Bool :=
  typesupport_identifier == rosidl_typesupport_introspection_cpp_typesupport_identifier

/-- The template `_create_type_name<MembersType>(untyped_members)` of
dynamic_type_support.hpp, lines 60-80: the returned string and the error
message it sets, if any.  A null handle is `none`. -/
def _create_type_name_T (_T : MembersType) (untyped_members : Option MessageMembers) :
    String × Option String :=
  match untyped_members with
  | none => ("", some "members handle is null")
  | some members =>
    ((if members.message_namespace_.isEmpty then "" else members.message_namespace_ ++ "::")
      ++ "dps_::" ++ members.message_name_ ++ "_", none)

/-- The overload `_create_type_name(untyped_members, typesupport)` of
dynamic_type_support.hpp, lines 82-97. -/
def _create_type_name (untyped_members : Option MessageMembers) (typesupport : String) :
    String × Option String :=
  if using_introspection_c_typesupport typesupport then
    _create_type_name_T .rosidl_typesupport_introspection_c__MessageMembers untyped_members
  else if using_introspection_cpp_typesupport typesupport then
    _create_type_name_T .rosidl_typesupport_introspection_cpp_MessageMembers untyped_members
  else ("", some "Unknown typesupport identifier")

/-- A constructed message type support: where it lives, the name it goes by
and the identifier it was built for. -/
structure TypeSupportObject where
  address : Nat
  name : String
  identifier : String
  deriving DecidableEq, Repr

/-- Calls of the registry helpers, in the order they were made. -/
inductive RegistryCall
  | create_message_type_support (typesupport_identifier : String)
      (result : Option TypeSupportObject)
  | register_type (node : Nat) (untyped_typesupport : Option TypeSupportObject)
      (typesupport_identifier : String)
  deriving DecidableEq, Repr

/-- What the type-support helpers act on: the types registered per node (node,
type name, type support), the address of the next object to be constructed, and
the calls made so far. -/
structure World where
  registry : List (Nat × String × TypeSupportObject)
  next_address : Nat
  calls : List RegistryCall
  deriving DecidableEq, Repr

/-- Modelled from the spec: `_get_registered_type(node, type_name, &untyped_typesupport)`,
declared in dynamic_type_support.hpp and defined elsewhere.  The registry is
looked up by type name; `some ts` stands for `true` with the handle stored
through the pointer, `none` for `false`. -/
def _get_registered_type (w : World) (node : Nat) (type_name : String) :
    Option TypeSupportObject :=
  (w.registry.find? (fun e => e.1 == node && e.2.1 == type_name)).map (fun e => e.2.2)

/-- Modelled from the spec: `_create_message_type_support(untyped_members, typesupport_identifier)`,
declared in dynamic_type_support.hpp and defined elsewhere.  For a recognised
identifier and a members handle it constructs a new type support, named as
`_create_type_name` names it; otherwise it returns null. -/
def _create_message_type_support (untyped_members : Option MessageMembers)
    (typesupport_identifier : String) (w : World) : Option TypeSupportObject × World :=
  if (using_introspection_c_typesupport typesupport_identifier
      || using_introspection_cpp_typesupport typesupport_identifier)
      && untyped_members.isSome then
    let ts : TypeSupportObject :=
      ⟨w.next_address, (_create_type_name untyped_members typesupport_identifier).1,
        typesupport_identifier⟩
    (some ts, { w with
      next_address := w.next_address + 1,
      calls := w.calls ++ [.create_message_type_support typesupport_identifier (some ts)] })
  else
    (none, { w with
      calls := w.calls ++ [.create_message_type_support typesupport_identifier none] })

/-- Modelled from the spec: `_register_type(node, untyped_typesupport, typesupport_identifier)`,
declared in dynamic_type_support.hpp and defined elsewhere.  A type support is
entered under its name unless the node already has one of that name; a null
handle enters nothing. -/
def _register_type (node : Nat) (untyped_typesupport : Option TypeSupportObject)
    (typesupport_identifier : String) (w : World) : World :=
  let w1 : World := { w with
    calls := w.calls ++ [.register_type node untyped_typesupport typesupport_identifier] }
  match untyped_typesupport with
  | none => w1
  | some ts =>
    match _get_registered_type w node ts.name with
    | some _ => w1
    | none => { w1 with registry := w1.registry ++ [(node, ts.name, ts)] }

/-- Lines 592-599 of rmw_zenoh_pico_dynamic.cpp, the get-or-create step of
`rmw_create_publisher`: the value left in `publisher_data->type_support_`. -/
def get_or_create_type_support (node : Nat) (untyped_members : Option MessageMembers)
    (typesupport_identifier_ : String) (w : World) : Option TypeSupportObject × World :=
  let type_name := (_create_type_name untyped_members typesupport_identifier_).1
  match _get_registered_type w node type_name with
  | some ts => (some ts, w)
  | none =>
    let r := _create_message_type_support untyped_members typesupport_identifier_ w
    (r.1, _register_type node r.1 typesupport_identifier_ r.2)

/-- The members of `rmw_qos_profile_t` that the code reads. -/
structure rmw_qos_profile_t where
  depth : Nat
  avoid_ros_namespace_conventions : Bool
  deriving DecidableEq, Repr

/-- A type-support handle as rosidl hands it out. -/
structure rosidl_message_type_support_t where
  typesupport_identifier : String
  data : Option MessageMembers
  deriving DecidableEq, Repr

/-- The `type_supports` argument: what `get_message_typesupport_handle` (rosidl)
answers for an identifier. -/
structure TypeSupports where
  get_message_typesupport_handle : String → Option rosidl_message_type_support_t

/-- The members of `rmw_node_t` that the code reads; `id` tells nodes apart. -/
structure rmw_node_t where
  id : Nat
  implementation_identifier : String
  deriving DecidableEq, Repr

/-- Options of a publisher, copied as they are. -/
structure rmw_publisher_options_t where
  rmw_specific_publisher_payload : Nat
  deriving DecidableEq, Repr

/-- Struct `rmw_publisher_data_t` as `rmw_create_publisher` fills it. -/
structure rmw_publisher_data_t where
  zn_topic_id_ : Nat
  typesupport_identifier_ : String
  type_support_impl_ : Option MessageMembers
  node_ : Nat
  type_support_ : Option TypeSupportObject
  deriving DecidableEq, Repr

/-- Struct `rmw_publisher_t` as `rmw_create_publisher` fills it. -/
structure rmw_publisher_t where
  implementation_identifier : String
  topic_name : String
  data : rmw_publisher_data_t
  options : rmw_publisher_options_t
  deriving DecidableEq, Repr

/-- What `rmw_create_publisher` calls outside this repository: the QoS check,
`rmw_validate_full_topic_name` (return code and validation result), the
allocator of the node's context (whether its k-th request of the call is
served) and `zn_declare_resource`. -/
structure Externals where
  is_valid_qos : rmw_qos_profile_t → Bool
  rmw_validate_full_topic_name : String → Int × Int
  allocate : Nat → Bool
  zn_declare_resource : String → Nat

/-- Return code `RMW_RET_OK`. -/
def RMW_RET_OK : Int := 0

/-- Validation result `RMW_TOPIC_VALID`. -/
def RMW_TOPIC_VALID : Int := 0

/-- Lines 520-531 of rmw_zenoh_pico_dynamic.cpp, "OBTAIN TYPESUPPORT": the
introspection-C handle, else the introspection-C++ handle, else null. -/
def obtain_typesupport (type_supports : TypeSupports) : Option rosidl_message_type_support_t :=
  match type_supports.get_message_typesupport_handle
      rosidl_typesupport_introspection_c__identifier with
  | some type_support => some type_support
  | none => type_supports.get_message_typesupport_handle
      rosidl_typesupport_introspection_cpp_typesupport_identifier

/-- Function `rmw_create_publisher` of rmw_zenoh_pico_dynamic.cpp, lines 458-618.
A null argument is `none`, a returned `nullptr` is `none`; the RMW error string
is not tracked. -/
def rmw_create_publisher (ext : Externals) (node : Option rmw_node_t)
    (type_supports : Option TypeSupports) (topic_name : Option String)
    (qos_profile : Option rmw_qos_profile_t)
    (publisher_options : Option rmw_publisher_options_t) (w : World) :
    Option rmw_publisher_t × World :=
  match node with
  | none => (none, w)
  | some node =>
  if node.implementation_identifier ≠ eclipse_zenoh_identifier then (none, w) else
  match topic_name with
  | none => (none, w)
  | some topic_name =>
  if topic_name.length = 0 then (none, w) else
  match qos_profile with
  | none => (none, w)
  | some qos_profile =>
  match publisher_options with
  | none => (none, w)
  | some publisher_options =>
  match type_supports with
  | none => (none, w)
  | some type_supports =>
  if ext.is_valid_qos qos_profile = false then (none, w) else
  if (ext.rmw_validate_full_topic_name topic_name).1 ≠ RMW_RET_OK then (none, w) else
  if (ext.rmw_validate_full_topic_name topic_name).2 ≠ RMW_TOPIC_VALID
      ∧ qos_profile.avoid_ros_namespace_conventions = false then (none, w) else
  match obtain_typesupport type_supports with
  | none => (none, w)
  | some type_support =>
  if ext.allocate 0 = false then (none, w) else
  if ext.allocate 1 = false then (none, w) else
  if ext.allocate 2 = false then (none, w) else
  let r := get_or_create_type_support node.id type_support.data
    type_support.typesupport_identifier w
  match r.1 with
  | none => (none, r.2)
  | some ts =>
    (some {
      implementation_identifier := type_support.typesupport_identifier
      topic_name := topic_name
      data := {
        zn_topic_id_ := ext.zn_declare_resource topic_name
        typesupport_identifier_ := type_support.typesupport_identifier
        type_support_impl_ := type_support.data
        node_ := node.id
        type_support_ := some ts }
      options := publisher_options }, r.2)

/-- Number of type supports constructed so far. -/
def World.constructions (w : World) : Nat :=
  (w.calls.filter (fun c => match c with
    | .create_message_type_support _ (some _) => true
    | _ => false)).length

/-- Publisher creations one after the other with the same node and the same
type supports; topic, QoS and options may vary from call to call. -/
def create_publishers (ext : Externals) (node : Option rmw_node_t)
    (type_supports : Option TypeSupports) :
    List (Option String × Option rmw_qos_profile_t × Option rmw_publisher_options_t) →
    World → List (Option rmw_publisher_t) × World
  | [], w => ([], w)
  | a :: rest, w =>
    let r := rmw_create_publisher ext node type_supports a.1 a.2.1 a.2.2 w
    let rs := create_publishers ext node type_supports rest r.2
    (r.1 :: rs.1, rs.2)

/-! ## Part 5. Latest-message cache of the subscription callback -/

/-- A Zenoh byte string: the memory at `val` and the length `len`. -/
structure z_bytes_t where
  val : List Nat
  len : Nat
  deriving DecidableEq, Repr

/-- The members of `zn_sample` that the callback reads. -/
structure zn_sample where
  key : z_bytes_t
  value : z_bytes_t
  deriving DecidableEq, Repr

/-- The `len` bytes starting at `val`, as the range constructors of
`std::string` and `std::vector` copy them. -/
def z_bytes_t.bytes (z : z_bytes_t) : List Nat := z.val.take z.len

/-- The static map `zn_messages_`: at most one entry per key. -/
abbrev MessageMap := List (List Nat × List Nat)

/-- Lookup `zn_messages_.find(key)`. -/
def MessageMap.find (m : MessageMap) (key : List Nat) : Option (List Nat) :=
  match m with
  | [] => none
  | (k, v) :: rest => if k = key then some v else MessageMap.find rest key

/-- Assignment `zn_messages_[key] = value`: the entry of `key` is replaced, or
created when there is none. -/
def MessageMap.assign (m : MessageMap) (key : List Nat) (value : List Nat) : MessageMap :=
  match m with
  | [] => [(key, value)]
  | (k, v) :: rest =>
    if k = key then (k, value) :: rest else (k, v) :: MessageMap.assign rest key value

/-- Callback `rmw_subscription_data_t::zn_sub_callback` of pubsub_impl.cpp,
lines 18-35, as a transformer of `zn_messages_`. -/
def zn_sub_callback (zn_messages_ : MessageMap) (sample : zn_sample) : MessageMap :=
  let key := sample.key.bytes
  let byte_vec := sample.value.bytes
  MessageMap.assign zn_messages_ key byte_vec

/-! ### Example inputs -/

/-- Externals under which every check passes and every allocation is served. -/
def exampleExternals : Externals :=
  ⟨fun _ => true, fun _ => (0, 0), fun _ => true, fun _ => 1⟩

/-- A node of this implementation. -/
def exampleNode : rmw_node_t := ⟨0, "rmw_zenoh_pico_dynamic_cpp"⟩

/-- Type supports of the introspection-C flavor only, for a message `Foo`
without namespace. -/
def exampleTypeSupports_c : TypeSupports :=
  ⟨fun identifier =>
    if identifier = "rosidl_typesupport_introspection_c" then
      some ⟨"rosidl_typesupport_introspection_c", some ⟨"", "Foo"⟩⟩
    else none⟩

/-- Type supports of the introspection-C++ flavor only, for a message `Foo`
without namespace. -/
def exampleTypeSupports_cpp : TypeSupports :=
  ⟨fun identifier =>
    if identifier = "rosidl_typesupport_introspection_cpp" then
      some ⟨"rosidl_typesupport_introspection_cpp", some ⟨"", "Foo"⟩⟩
    else none⟩

/-- Type supports whose handle carries an identifier that
`_create_message_type_support` does not recognise. -/
def exampleTypeSupports_unknown : TypeSupports :=
  ⟨fun _ => some ⟨"rosidl_typesupport_other", some ⟨"", "Foo"⟩⟩⟩

/-- Type supports of neither introspection flavor. -/
def exampleTypeSupports_none : TypeSupports := ⟨fun _ => none⟩

/-- A world in which nothing is registered and nothing was constructed. -/
def emptyWorld : World := ⟨[], 0, []⟩

/-! ## Part 5b. `rmw_init` -/

/-- Return code `RMW_RET_ERROR`. -/
def RMW_RET_ERROR : Int := 1

/-- Return code `RMW_RET_BAD_ALLOC`. -/
def RMW_RET_BAD_ALLOC : Int := 10

/-- The members of `rmw_init_options_impl_t` that the code reads. -/
structure rmw_init_options_impl_t where
  mode : String
  session_locator : String
  deriving DecidableEq, Repr

/-- The members of `rmw_init_options_t` that the code reads; a null `impl` is `none`. -/
structure rmw_init_options_t where
  instance_id : Nat
  impl : Option rmw_init_options_impl_t
  deriving DecidableEq, Repr

/-- Struct `rmw_context_impl_t`: the session handle and the shutdown flag. -/
structure rmw_context_impl_t where
  session : Nat
  is_shutdown : Bool
  deriving DecidableEq, Repr

/-- Struct `rmw_context_t`; null pointers are `none`. -/
structure rmw_context_t where
  instance_id : Nat
  implementation_identifier : Option String
  options : rmw_init_options_t
  impl : Option rmw_context_impl_t
  deriving DecidableEq, Repr

/-- Value of `rmw_get_zero_initialized_context()` (rmw): every member zero. -/
def rmw_get_zero_initialized_context : rmw_context_t :=
  ⟨0, none, ⟨0, none⟩, none⟩

/-- What `rmw_init` calls outside rmw_zenoh_pico_dynamic.cpp:
`rmw_zenoh_common_init_pre` (return code and the context as it leaves it),
whether the allocator serves the request for the context impl,
`zn_config_client`, `zn_open` (null is `none`), and the two task starters with
their return codes (0 success, -1 failure). -/
structure InitExternals where
  rmw_zenoh_common_init_pre : Option rmw_init_options_t → rmw_context_t → Int × rmw_context_t
  allocate_context_impl : Bool
  zn_config_client : String → Option Nat
  zn_open : Nat → Option Nat
  znp_start_read_task : Nat → Int
  znp_start_lease_task : Nat → Int

/-- Function `configure_connection_mode` of rmw_zenoh_pico_dynamic.cpp, lines
49-57: the configuration returned (null is `none`) and the error message set,
if any.  The function dereferences `context->options.impl`; with a null `impl`
no mode can be read and the model takes the error branch. -/
def configure_connection_mode (ext : InitExternals) (context : rmw_context_t) :
    Option Nat × Option String :=
  match context.options.impl with
  | some impl =>
    if impl.mode = "CLIENT" then (ext.zn_config_client impl.session_locator, none)
    else (none, some "zenoh-pico can only work in client mode")
  | none => (none, some "zenoh-pico can only work in client mode")

/-- Function `configure_session` of rmw_zenoh_pico_dynamic.cpp, lines 59-64.
It returns nothing; the list holds what `znp_start_read_task` and
`znp_start_lease_task` returned, which the function drops. -/
def configure_session (ext : InitExternals) (session : Nat) : List Int :=
  [ext.znp_start_read_task session, ext.znp_start_lease_task session]

/-- Function `rmw_init` of rmw_zenoh_pico_dynamic.cpp, lines 89-139: the return
code, `*context` on return, and the return codes of the task starters called
through `configure_session`.  The deleter of `clean_when_fail` stores the
zero-initialized context on every path that returns before `release()`. -/
def rmw_init (ext : InitExternals) (options : Option rmw_init_options_t)
    (context : rmw_context_t) : Int × rmw_context_t × List Int :=
  let pre := ext.rmw_zenoh_common_init_pre options context
  let ret := pre.1
  let context := pre.2
  if ret = RMW_RET_OK then
    if ext.allocate_context_impl = false then
      (RMW_RET_BAD_ALLOC, rmw_get_zero_initialized_context, [])
    else
      match (configure_connection_mode ext context).1 with
      | none => (RMW_RET_ERROR, rmw_get_zero_initialized_context, [])
      | some config =>
        match ext.zn_open config with
        | none => (RMW_RET_ERROR, rmw_get_zero_initialized_context, [])
        | some session =>
          let context_impl : rmw_context_impl_t := ⟨session, false⟩
          (ret, { context with impl := some context_impl },
            configure_session ext context_impl.session)
  else (ret, rmw_get_zero_initialized_context, [])

/-- Function `rmw_get_implementation_identifier` of rmw_zenoh_pico_dynamic.cpp,
lines 66-70. -/
def rmw_get_implementation_identifier : String := eclipse_zenoh_identifier

/-! ## Part 5c. `rmw_create_subscription` -/

/-- Options of a subscription, copied as they are. -/
structure rmw_subscription_options_t where
  rmw_specific_subscription_payload : Nat
  ignore_local_publications : Bool
  deriving DecidableEq, Repr

/-- Struct `rmw_subscription_data_t` as `rmw_create_subscription` fills it;
`zn_subscriber_` stays unset (`none`) when no Zenoh subscriber is declared. -/
structure rmw_subscription_data_t where
  typesupport_identifier_ : String
  type_support_impl_ : Option MessageMembers
  node_ : Nat
  subscription_id_ : Nat
  queue_depth_ : Nat
  zn_subscriber_ : Option Nat
  deriving DecidableEq, Repr

/-- Struct `rmw_subscription_t` as `rmw_create_subscription` fills it. -/
structure rmw_subscription_t where
  implementation_identifier : String
  options : rmw_subscription_options_t
  can_loan_messages : Bool
  topic_name : String
  data : rmw_subscription_data_t
  deriving DecidableEq, Repr

/-- What `rmw_create_subscription` needs beyond `Externals`: the two type-support
identifiers behind the macros `RMW_ZENOH_CPP_TYPESUPPORT_C` and
`RMW_ZENOH_CPP_TYPESUPPORT_CPP`, `zn_declare_subscriber` (the handle it returns
for a topic), and the number of values of the subscription id counter. -/
structure SubscriptionExternals extends Externals where
  RMW_ZENOH_CPP_TYPESUPPORT_C : String
  RMW_ZENOH_CPP_TYPESUPPORT_CPP : String
  zn_declare_subscriber : String → Nat
  counter_values : Nat

/-- The statics of `rmw_subscription_data_t` and the Zenoh calls made: the id
counter, the topic map (topic, then the subscriptions of that topic named by
their `subscription_id_`), and the topics `zn_declare_subscriber` was called
for, in order. -/
structure SubscriptionWorld where
  subscription_id_counter : Nat
  zn_topic_to_sub_data : List (String × List Nat)
  declared : List String
  deriving DecidableEq, Repr

/-- Lookup `zn_topic_to_sub_data.find(key)`. -/
def topic_find (m : List (String × List Nat)) (key : String) : Option (List Nat) :=
  match m with
  | [] => none
  | (k, v) :: rest => if k = key then some v else topic_find rest key

/-- Append `map_iter->second.push_back(sub)` at the entry of `key`. -/
def topic_push_back (m : List (String × List Nat)) (key : String) (sub : Nat) :
    List (String × List Nat) :=
  match m with
  | [] => []
  | (k, v) :: rest =>
    if k = key then (k, v ++ [sub]) :: rest else (k, v) :: topic_push_back rest key sub

/-- Lines 292-303 of rmw_zenoh_pico_dynamic.cpp, "OBTAIN TYPESUPPORT" of
`rmw_create_subscription`. -/
def obtain_subscription_typesupport (ext : SubscriptionExternals)
    (type_supports : TypeSupports) : Option rosidl_message_type_support_t :=
  match type_supports.get_message_typesupport_handle ext.RMW_ZENOH_CPP_TYPESUPPORT_C with
  | some type_support => some type_support
  | none => type_supports.get_message_typesupport_handle ext.RMW_ZENOH_CPP_TYPESUPPORT_CPP

/-- Function `rmw_create_subscription` of rmw_zenoh_pico_dynamic.cpp, lines
227-419.  A null argument is `none`, a returned `nullptr` is `none`; the RMW
error string is not tracked. -/
def rmw_create_subscription (ext : SubscriptionExternals) (node : Option rmw_node_t)
    (type_supports : Option TypeSupports) (topic_name : Option String)
    (qos_profile : Option rmw_qos_profile_t)
    (subscription_options : Option rmw_subscription_options_t) (w : SubscriptionWorld) :
    Option rmw_subscription_t × SubscriptionWorld :=
  match node with
  | none => (none, w)
  | some node =>
  if node.implementation_identifier ≠ eclipse_zenoh_identifier then (none, w) else
  match topic_name with
  | none => (none, w)
  | some topic_name =>
  if topic_name.length = 0 then (none, w) else
  match qos_profile with
  | none => (none, w)
  | some qos_profile =>
  match subscription_options with
  | none => (none, w)
  | some subscription_options =>
  match type_supports with
  | none => (none, w)
  | some type_supports =>
  if ext.is_valid_qos qos_profile = false then (none, w) else
  if (ext.rmw_validate_full_topic_name topic_name).1 ≠ RMW_RET_OK then (none, w) else
  if (ext.rmw_validate_full_topic_name topic_name).2 ≠ RMW_TOPIC_VALID
      ∧ qos_profile.avoid_ros_namespace_conventions = false then (none, w) else
  match obtain_subscription_typesupport ext type_supports with
  | none => (none, w)
  | some type_support =>
  if ext.allocate 0 = false then (none, w) else
  if ext.allocate 1 = false then (none, w) else
  if ext.allocate 2 = false then (none, w) else
  if ext.allocate 3 = false then (none, w) else
  let subscription_id_ := w.subscription_id_counter
  let counter := (w.subscription_id_counter + 1) % ext.counter_values
  match topic_find w.zn_topic_to_sub_data topic_name with
  | none =>
    (some {
      implementation_identifier := eclipse_zenoh_identifier
      options := subscription_options
      can_loan_messages := false
      topic_name := topic_name
      data := {
        typesupport_identifier_ := type_support.typesupport_identifier
        type_support_impl_ := type_support.data
        node_ := node.id
        subscription_id_ := subscription_id_
        queue_depth_ := qos_profile.depth
        zn_subscriber_ := some (ext.zn_declare_subscriber topic_name) } },
     { subscription_id_counter := counter
       zn_topic_to_sub_data := w.zn_topic_to_sub_data ++ [(topic_name, [subscription_id_])]
       declared := w.declared ++ [topic_name] })
  | some _ =>
    (some {
      implementation_identifier := eclipse_zenoh_identifier
      options := subscription_options
      can_loan_messages := false
      topic_name := topic_name
      data := {
        typesupport_identifier_ := type_support.typesupport_identifier
        type_support_impl_ := type_support.data
        node_ := node.id
        subscription_id_ := subscription_id_
        queue_depth_ := qos_profile.depth
        zn_subscriber_ := none } },
     { subscription_id_counter := counter
       zn_topic_to_sub_data := topic_push_back w.zn_topic_to_sub_data topic_name subscription_id_
       declared := w.declared })

/-- Arguments of one call of `rmw_create_subscription`. -/
structure SubscriptionArgs where
  node : Option rmw_node_t
  type_supports : Option TypeSupports
  topic_name : Option String
  qos_profile : Option rmw_qos_profile_t
  subscription_options : Option rmw_subscription_options_t

/-- Calls of `rmw_create_subscription` one after the other. -/
def create_subscriptions (ext : SubscriptionExternals) :
    List SubscriptionArgs → SubscriptionWorld →
    List (Option rmw_subscription_t) × SubscriptionWorld
  | [], w => ([], w)
  | a :: rest, w =>
    let r := rmw_create_subscription ext a.node a.type_supports a.topic_name a.qos_profile
      a.subscription_options w
    let rs := create_subscriptions ext rest r.2
    (r.1 :: rs.1, rs.2)

/-- The topic-name check as the claim words it: the name is non-empty,
`rmw_validate_full_topic_name` returns `RMW_RET_OK`, and the validation result
is `RMW_TOPIC_VALID` or `avoid_ros_namespace_conventions` is set. -/
def topic_name_accepted (ext : Externals) (topic_name : String)
    (qos_profile : rmw_qos_profile_t) : Prop :=
  topic_name.length ≠ 0 ∧
  (ext.rmw_validate_full_topic_name topic_name).1 = RMW_RET_OK ∧
  ((ext.rmw_validate_full_topic_name topic_name).2 = RMW_TOPIC_VALID ∨
    qos_profile.avoid_ros_namespace_conventions = true)

/-- Externals of `rmw_init` under which every step succeeds. -/
def exampleInitExternals : InitExternals :=
  ⟨fun _ c => (0, c), true, fun _ => some 7, fun _ => some 3, fun _ => 0, fun _ => 0⟩

/-- Externals of `rmw_init` under which every step succeeds except that both
task starters report failure. -/
def exampleInitExternals_tasks_fail : InitExternals :=
  ⟨fun _ c => (0, c), true, fun _ => some 7, fun _ => some 3, fun _ => -1, fun _ => -1⟩

/-- A context as `rmw_zenoh_common_init_pre` leaves it, with the given mode. -/
def exampleContext (mode : String) : rmw_context_t :=
  ⟨1, some "rmw_zenoh_pico_dynamic_cpp", ⟨1, some ⟨mode, "tcp/127.0.0.1:7447"⟩⟩, none⟩

/-- Externals of `rmw_create_subscription` under which every check passes. -/
def exampleSubscriptionExternals : SubscriptionExternals :=
  { exampleExternals with
    RMW_ZENOH_CPP_TYPESUPPORT_C := "rosidl_typesupport_introspection_c"
    RMW_ZENOH_CPP_TYPESUPPORT_CPP := "rosidl_typesupport_introspection_cpp"
    zn_declare_subscriber := fun _ => 5
    counter_values := 18446744073709551616 }

/-- Statics before any subscription was created, the counter at `c0`. -/
def emptySubscriptionWorld (c0 : Nat) : SubscriptionWorld := ⟨c0, [], []⟩

/-- Arguments of a subscription to `topic` on the example node. -/
def exampleSubscriptionArgs (topic : String) : SubscriptionArgs :=
  ⟨some exampleNode, some exampleTypeSupports_c, some topic, some ⟨10, false⟩, some ⟨0, false⟩⟩

/-- Externals whose topic validation reports an invalid name. -/
def exampleSubscriptionExternals_invalid_topic : SubscriptionExternals :=
  { exampleSubscriptionExternals with rmw_validate_full_topic_name := fun _ => (0, 1) }

/-! ## Part 6. Vocabulary of the proofs -/

/-- Every index read so far lies below `size`. -/
def ReadsWithin (size : Nat) (c : Cursor) : Prop := ∀ i ∈ c.reads, i < size

/-- What a bounds-checked decoding step guarantees: its reads stay below the
trusted length, bytes beyond that length have no influence, the position only
advances, and on a shorter buffer the step repeats itself as long as the
buffer covers what it consumed and fails with `TruncatedInput` otherwise. -/
structure Checked {α : Type} (f : Dec α) : Prop where
  safe : ∀ b c, ReadsWithin b.size c → ReadsWithin b.size (f b c).cursor
  agree : ∀ (d d' : Nat → Nat) n c, (∀ i, i < n → d' i = d i) → f ⟨d', n⟩ c = f ⟨d, n⟩ c
  mono : ∀ b c a c', f b c = .ok a c' → c.pos ≤ c'.pos
  shrink_ok : ∀ (d : Nat → Nat) n k c a c', f ⟨d, n⟩ c = .ok a c' → c'.pos ≤ k →
    f ⟨d, k⟩ c = .ok a c'
  shrink_fail : ∀ (d : Nat → Nat) n k c a c', f ⟨d, n⟩ c = .ok a c' → c.pos ≤ k → k < c'.pos →
    ∃ c'', f ⟨d, k⟩ c = .fail .TruncatedInput c''

/-- The bytes `bs` sit in the buffer from index `p` on, inside the trusted length. -/
def Holds (b : Buffer) (p : Nat) (bs : List Nat) : Prop :=
  p + bs.length ≤ b.size ∧ ∀ i, i < bs.length → b.data (p + i) = bs.getD i 0

/-- Step `f` turns the bytes `bs`, wherever they sit, into `a` and consumes
exactly them. -/
def Decodes {α : Type} (f : Dec α) (bs : List Nat) (a : α) : Prop :=
  ∀ b c, Holds b c.pos bs → ∃ c', f b c = .ok a c' ∧ c'.pos = c.pos + bs.length

/-- A serializer, a ceiling check and a decoder for nested messages that agree:
what the serializer produced for an instance passing the check, the decoder
turns back into that instance. -/
def Inverts (S : TypeSchema → Value → Except SerializeFault (List Nat))
    (C : TypeSchema → Value → Bool) (D : TypeSchema → Dec Value) : Prop :=
  ∀ s v bytes, S s v = .ok bytes → C s v = true → Decodes (D s) bytes v

/-- Whether `_create_message_type_support` can build a type support. -/
def buildable (members : Option MessageMembers) (id : String) : Bool :=
  (using_introspection_c_typesupport id || using_introspection_cpp_typesupport id)
    && members.isSome

/-- Schema with a one-byte field followed by a BOUNDED(2) array of uint8. -/
def boundedExample_schema : TypeSchema :=
  .mk [.mk "n" (.scalar .UINT8) .SCALAR 0, .mk "a" (.scalar .UINT8) (.BOUNDED 2) 8] "B" "" 32

/-- Schema with a single member `inner`, a message of `boundedExample_schema`. -/
def nestedExample_schema : TypeSchema :=
  .mk [.mk "inner" (.MESSAGE boundedExample_schema) .SCALAR 0] "Outer" "" 32

/-- Schema with a single member `items`, an UNBOUNDED array of messages of
`boundedExample_schema`. -/
def nestedArrayExample_schema : TypeSchema :=
  .mk [.mk "items" (.MESSAGE boundedExample_schema) .UNBOUNDED 0] "Items" "" 24

/-- Decoding of member `g` from cursor `c1` gets, every step before having
succeeded, to the start `c2` of a message of schema `S'` that `g` holds: the
message itself for a SCALAR member, or the element after `i` decoded elements
of an array member (for the counted shapes after the count was read, found
within its limit, and the storage allocated).  `elem` decodes one element. -/
inductive EntersElement (cfg : CodecConfig) (b : Buffer) (elem : Dec Value) :
    FieldDescriptor → Cursor → TypeSchema → Cursor → Prop
  | scalar (name : String) (S' : TypeSchema) (off : Nat) (c1 : Cursor) :
      EntersElement cfg b elem (.mk name (.MESSAGE S') .SCALAR off) c1 S' c1
  | fixed (name : String) (S' : TypeSchema) (off n i : Nat) (c1 c2 : Cursor)
      (es : List Value) :
      i < n → DeserializeArray elem i b c1 = .ok es c2 →
      EntersElement cfg b elem (.mk name (.MESSAGE S') (.FIXED n) off) c1 S' c2
  | bounded (name : String) (S' : TypeSchema) (off m n i : Nat) (c1 cA c2 : Cursor)
      (es : List Value) :
      DeserializeArraySize b c1 = .ok n cA → n ≤ m → i < n →
      DeserializeArray elem i b { cA with allocs := cA.allocs ++ [n] } = .ok es c2 →
      EntersElement cfg b elem (.mk name (.MESSAGE S') (.BOUNDED m) off) c1 S' c2
  | unbounded (name : String) (S' : TypeSchema) (off n i : Nat) (c1 cA c2 : Cursor)
      (es : List Value) :
      DeserializeArraySize b c1 = .ok n cA → n ≤ cfg.max_unbounded → i < n →
      DeserializeArray elem i b { cA with allocs := cA.allocs ++ [n] } = .ok es c2 →
      EntersElement cfg b elem (.mk name (.MESSAGE S') .UNBOUNDED off) c1 S' c2

/-- While a message of schema `S` is decoded from cursor `c0` with `depth`
levels of nesting left, the decoder gets to member `f` at cursor `c`, every
step before it having succeeded.  The member may be a field of `S` itself or
of a message nested in `S` at any level; `d` is the number of levels left for
the messages nested in `f`. -/
inductive Arrives (cfg : CodecConfig) (b : Buffer) :
    Nat → TypeSchema → Cursor → Nat → FieldDescriptor → Cursor → Prop
  | direct (d : Nat) (S : TypeSchema) (pre post : List FieldDescriptor) (f : FieldDescriptor)
      (vs : List Value) (c0 c : Cursor) :
      S.fields = pre ++ f :: post →
      DeserializeMembers cfg (DeserializeMessage cfg d) pre b c0 = .ok vs c →
      Arrives cfg b (d + 1) S c0 d f c
  | nested (depth : Nat) (S : TypeSchema) (pre post : List FieldDescriptor)
      (g : FieldDescriptor) (vs : List Value) (c0 c1 c2 : Cursor) (S' : TypeSchema)
      (d : Nat) (f : FieldDescriptor) (c : Cursor) :
      S.fields = pre ++ g :: post →
      DeserializeMembers cfg (DeserializeMessage cfg depth) pre b c0 = .ok vs c1 →
      EntersElement cfg b (DeserializeMessage cfg depth S') g c1 S' c2 →
      Arrives cfg b depth S' c2 d f c →
      Arrives cfg b (depth + 1) S c0 d f c

/-- Lines 592-599 of rmw_zenoh_pico_dynamic.cpp again, with
`_create_message_type_support` taken as a parameter `create`: what the
get-or-create step does with whatever that helper returns. -/
def get_or_create_type_support_with
    (create : Option MessageMembers → String → World → Option TypeSupportObject × World)
    (node : Nat) (untyped_members : Option MessageMembers) (typesupport_identifier_ : String)
    (w : World) : Option TypeSupportObject × World :=
  let type_name := (_create_type_name untyped_members typesupport_identifier_).1
  match _get_registered_type w node type_name with
  | some ts => (some ts, w)
  | none =>
    let r := create untyped_members typesupport_identifier_ w
    (r.1, _register_type node r.1 typesupport_identifier_ r.2)

/-- A `_create_message_type_support` that produces no type support: it returns
null and touches nothing. -/
def create_returns_null (_untyped_members : Option MessageMembers)
    (_typesupport_identifier : String) (w : World) : Option TypeSupportObject × World :=
  (none, w)

/-- Type supports whose introspection-C handle has a null `data`. -/
def exampleTypeSupports_null_data : TypeSupports :=
  ⟨fun identifier =>
    if identifier = "rosidl_typesupport_introspection_c" then
      some ⟨"rosidl_typesupport_introspection_c", none⟩
    else none⟩

/-! ## Part 7. Lemmas on decoding steps -/

theorem dec_bind_def {α β : Type} (f : Dec α) (g : α → Dec β) : (f >>= g) = Dec.bind f g := rfl

theorem dec_pure_def {α : Type} (a : α) : (Pure.pure a : Dec α) = Dec.pure a := rfl

theorem checked_pure {α : Type} (a : α) : Checked (Dec.pure a) where
  safe := fun _ _ h => h
  agree := fun _ _ _ _ _ => rfl
  mono := by
    intro b c a' c' h
    simp only [Dec.pure, Outcome.ok.injEq] at h
    rw [h.2]
  shrink_ok := fun _ _ _ _ _ _ h _ => h
  shrink_fail := by
    intro d n k c a' c' h h1 h2
    simp only [Dec.pure, Outcome.ok.injEq] at h
    rw [h.2] at h1
    omega

theorem checked_fail {α : Type} (e : CodecError) : Checked (Dec.fail e : Dec α) where
  safe := fun _ _ h => h
  agree := fun _ _ _ _ _ => rfl
  mono := by intro b c a c' h; simp [Dec.fail] at h
  shrink_ok := by intro d n k c a c' h; simp [Dec.fail] at h
  shrink_fail := by intro d n k c a c' h; simp [Dec.fail] at h

theorem checked_allocate (n : Nat) : Checked (allocate n) where
  safe := fun _ _ h => h
  agree := fun _ _ _ _ _ => rfl
  mono := by
    intro b c a' c' h
    simp only [RmwZenoh.allocate, Outcome.ok.injEq] at h
    rw [← h.2]
  shrink_ok := fun _ _ _ _ _ _ h _ => h
  shrink_fail := by
    intro d n k c a' c' h h1 h2
    simp only [RmwZenoh.allocate, Outcome.ok.injEq] at h
    rw [← h.2] at h2
    simp at h2
    omega

theorem checked_readBytes (n : Nat) : Checked (readBytes n) where
  safe := by
    intro b c h
    unfold RmwZenoh.readBytes
    split
    · rename_i hle
      intro i hi
      simp only [Outcome.cursor, List.mem_append, List.mem_range'_1] at hi
      rcases hi with hi | hi
      · exact h i hi
      · omega
    · exact h
  agree := by
    intro d d' m c h
    unfold RmwZenoh.readBytes
    simp only
    split
    · rename_i hle
      congr 1
      apply List.map_congr_left
      intro i hi
      simp only [List.mem_range'_1] at hi
      exact h i (by omega)
    · rfl
  mono := by
    intro b c a c' h
    unfold RmwZenoh.readBytes at h
    split at h
    · simp only [Outcome.ok.injEq] at h
      rw [← h.2]
      simp
    · simp at h
  shrink_ok := by
    intro d m k c a c' h hk
    unfold RmwZenoh.readBytes at h ⊢
    simp only at h ⊢
    split at h
    · simp only [Outcome.ok.injEq] at h
      have hp : c'.pos = c.pos + n := by rw [← h.2]
      rw [if_pos (by omega)]
      simp only [Outcome.ok.injEq]
      exact h
    · simp at h
  shrink_fail := by
    intro d m k c a c' h h1 h2
    unfold RmwZenoh.readBytes at h ⊢
    simp only at h ⊢
    split at h
    · simp only [Outcome.ok.injEq] at h
      have hp : c'.pos = c.pos + n := by rw [← h.2]
      rw [if_neg (by omega)]
      exact ⟨c, rfl⟩
    · simp at h

theorem checked_bind {α β : Type} {f : Dec α} {g : α → Dec β} (hf : Checked f) (hg : ∀ a, Checked (g a)) :
    Checked (Dec.bind f g) where
  safe := by
    intro b c h
    have h1 := hf.safe b c h
    unfold Dec.bind
    cases hfc : f b c with
    | ok a c1 =>
      rw [hfc] at h1
      exact (hg a).safe b c1 h1
    | fail e c1 =>
      rw [hfc] at h1
      exact h1
  agree := by
    intro d d' n c h
    unfold Dec.bind
    rw [hf.agree d d' n c h]
    cases f ⟨d, n⟩ c with
    | ok a c1 => exact (hg a).agree d d' n c1 h
    | fail e c1 => rfl
  mono := by
    intro b c a c' h
    unfold Dec.bind at h
    cases hfc : f b c with
    | ok a1 c1 =>
      rw [hfc] at h
      exact Nat.le_trans (hf.mono b c a1 c1 hfc) ((hg a1).mono b c1 a c' h)
    | fail e c1 =>
      rw [hfc] at h
      simp at h
  shrink_ok := by
    intro d n k c a c' h hk
    unfold Dec.bind at h ⊢
    cases hfc : f ⟨d, n⟩ c with
    | ok a1 c1 =>
      rw [hfc] at h
      simp only at h
      have hm := (hg a1).mono _ _ _ _ h
      rw [hf.shrink_ok d n k c a1 c1 hfc (by omega)]
      exact (hg a1).shrink_ok d n k c1 a c' h hk
    | fail e c1 =>
      rw [hfc] at h
      simp at h
  shrink_fail := by
    intro d n k c a c' h h1 h2
    unfold Dec.bind at h ⊢
    cases hfc : f ⟨d, n⟩ c with
    | ok a1 c1 =>
      rw [hfc] at h
      simp only at h
      by_cases hc1 : c1.pos ≤ k
      · rw [hf.shrink_ok d n k c a1 c1 hfc hc1]
        exact (hg a1).shrink_fail d n k c1 a c' h hc1 h2
      · obtain ⟨c'', hc''⟩ := hf.shrink_fail d n k c a1 c1 hfc h1 (by omega)
        rw [hc'']
        exact ⟨c'', rfl⟩
    | fail e c1 =>
      rw [hfc] at h
      simp at h

theorem checked_DeserializeSingle (w : Nat) : Checked (DeserializeSingle w) :=
  checked_bind (checked_readBytes w) (fun _ => checked_pure _)

theorem checked_DeserializeArraySize : Checked DeserializeArraySize :=
  checked_bind (checked_readBytes 4) (fun _ => checked_pure _)

theorem checked_DeserializeString (wide : Bool) : Checked (DeserializeString wide) :=
  checked_bind checked_DeserializeArraySize (fun _ =>
    checked_bind (checked_readBytes _) (fun _ =>
      checked_bind (checked_allocate _) (fun _ => checked_pure _)))

theorem checked_DeserializeValue {recur : TypeSchema → Dec Value}
    (hr : ∀ s, Checked (recur s)) (kind : FieldKind) : Checked (DeserializeValue recur kind) := by
  cases kind with
  | scalar k => exact checked_DeserializeSingle k.width
  | STRING => exact checked_DeserializeString false
  | WSTRING => exact checked_DeserializeString true
  | MESSAGE s => exact hr s

theorem checked_DeserializeArray {elem : Dec Value} (he : Checked elem) (n : Nat) :
    Checked (DeserializeArray elem n) := by
  induction n with
  | zero => exact checked_pure _
  | succ n ih => exact checked_bind he (fun _ => checked_bind ih (fun _ => checked_pure _))

theorem checked_DeserializeDynamicArray {elem : Dec Value} (he : Checked elem) (limit : Nat) :
    Checked (DeserializeDynamicArray elem limit) := by
  refine checked_bind checked_DeserializeArraySize (fun n => ?_)
  by_cases h : n > limit
  · simp only [h, if_true]
    exact checked_fail _
  · simp only [h, if_false]
    exact checked_bind (checked_allocate _) (fun _ =>
      checked_bind (checked_DeserializeArray he n) (fun _ => checked_pure _))

theorem checked_DeserializeMember (cfg : CodecConfig) {recur : TypeSchema → Dec Value}
    (hr : ∀ s, Checked (recur s)) (f : FieldDescriptor) :
    Checked (DeserializeMember cfg recur f) := by
  obtain ⟨name, kind, shape, off⟩ := f
  cases shape with
  | SCALAR => exact checked_DeserializeValue hr kind
  | FIXED n =>
    exact checked_bind (checked_DeserializeArray (checked_DeserializeValue hr kind) n)
      (fun _ => checked_pure _)
  | BOUNDED n => exact checked_DeserializeDynamicArray (checked_DeserializeValue hr kind) n
  | UNBOUNDED => exact checked_DeserializeDynamicArray (checked_DeserializeValue hr kind) _

theorem checked_DeserializeMembers (cfg : CodecConfig) {recur : TypeSchema → Dec Value}
    (hr : ∀ s, Checked (recur s)) (fs : List FieldDescriptor) :
    Checked (DeserializeMembers cfg recur fs) := by
  induction fs with
  | nil => exact checked_pure _
  | cons f fs ih =>
    exact checked_bind (checked_DeserializeMember cfg hr f)
      (fun _ => checked_bind ih (fun _ => checked_pure _))

theorem checked_DeserializeMessage (cfg : CodecConfig) (depth : Nat) :
    ∀ s, Checked (DeserializeMessage cfg depth s) := by
  induction depth with
  | zero => intro s; exact checked_fail _
  | succ d ih =>
    intro s
    exact checked_bind (checked_DeserializeMembers cfg ih s.fields) (fun _ => checked_pure _)

theorem holds_append {b : Buffer} {p : Nat} {xs ys : List Nat} (h : Holds b p (xs ++ ys)) :
    Holds b p xs ∧ Holds b (p + xs.length) ys := by
  obtain ⟨h1, h2⟩ := h
  simp only [List.length_append] at h1 h2
  refine ⟨⟨by omega, ?_⟩, ⟨by omega, ?_⟩⟩
  · intro i hi
    rw [h2 i (by omega)]
    simp [List.getD_eq_getElem?_getD, List.getElem?_append_left hi]
  · intro i hi
    have := h2 (xs.length + i) (by omega)
    rw [Nat.add_assoc, this]
    simp [List.getD_eq_getElem?_getD, List.getElem?_append_right]

theorem decodes_pure {α : Type} (a : α) : Decodes (Dec.pure a) [] a := by
  intro b c _
  exact ⟨c, rfl, by simp⟩

theorem decodes_allocate (n : Nat) : Decodes (allocate n) [] () := by
  intro b c _
  exact ⟨_, rfl, by simp⟩

theorem decodes_readBytes (bs : List Nat) : Decodes (readBytes bs.length) bs bs := by
  intro b c h
  obtain ⟨h1, h2⟩ := h
  refine ⟨{ c with pos := c.pos + bs.length,
                      reads := c.reads ++ List.range' c.pos bs.length }, ?_, rfl⟩
  unfold readBytes
  rw [if_pos (by omega)]
  simp only [Outcome.ok.injEq, and_true]
  apply List.ext_getElem
  · simp
  · intro i hi1 hi2
    simp only [List.getElem_map, List.getElem_range', Nat.one_mul]
    rw [h2 i hi2]
    simp [List.getD_eq_getElem?_getD, List.getElem?_eq_getElem hi2]

theorem decodes_bind {α β : Type} {f : Dec α} {g : α → Dec β} {xs ys : List Nat} {a : α} {v : β}
    (hf : Decodes f xs a) (hg : Decodes (g a) ys v) : Decodes (Dec.bind f g) (xs ++ ys) v := by
  intro b c h
  obtain ⟨hx, hy⟩ := holds_append h
  obtain ⟨c1, hc1, hp1⟩ := hf b c hx
  rw [← hp1] at hy
  obtain ⟨c2, hc2, hp2⟩ := hg b c1 hy
  refine ⟨c2, ?_, ?_⟩
  · unfold Dec.bind
    rw [hc1]
    exact hc2
  · rw [hp2, hp1, List.length_append]
    omega

theorem decodeCount_encodeCount (n : Nat) (h : n < 4294967296) :
    decodeCount (encodeCount n) = n := by
  simp only [encodeCount, decodeCount, Nat.mod_mod]
  omega

theorem decodes_DeserializeArraySize (n : Nat) (h : n < 4294967296) :
    Decodes DeserializeArraySize (encodeCount n) n := by
  have h1 := decodes_bind (decodes_readBytes (encodeCount n))
    (decodes_pure (decodeCount (encodeCount n)))
      (g := fun bs => Dec.pure (decodeCount bs))
  rw [decodeCount_encodeCount n h] at h1
  simpa using h1

theorem decodes_DeserializeString (wide : Bool) (v : Value) (bytes : List Nat)
    (h : serializeString wide v = .ok bytes) : Decodes (DeserializeString wide) bytes v := by
  cases v with
  | string bs =>
    simp only [serializeString] at h
    split at h
    · rename_i hc
      simp only [Except.ok.injEq] at h
      subst h
      have hu : 0 < unitWidth wide := by unfold unitWidth; split <;> omega
      have hlen : bs.length / unitWidth wide * unitWidth wide = bs.length :=
        Nat.div_mul_cancel (Nat.dvd_of_mod_eq_zero hc.1)
      have hread : Decodes (readBytes (bs.length / unitWidth wide * unitWidth wide)) bs bs := by
        rw [hlen]; exact decodes_readBytes bs
      have h3 := decodes_bind (decodes_DeserializeArraySize _ hc.2)
        (decodes_bind hread
          (decodes_bind (decodes_allocate (bs.length / unitWidth wide))
            (decodes_pure (Value.string bs))
            (g := fun _ => Dec.pure (Value.string bs)))
          (g := fun bs' => Dec.bind (allocate (bs.length / unitWidth wide))
            (fun _ => Dec.pure (Value.string bs'))))
        (g := fun n => Dec.bind (readBytes (n * unitWidth wide))
          (fun bs' => Dec.bind (allocate n) (fun _ => Dec.pure (Value.string bs'))))
      simpa using h3
    · simp at h
  | scalar _ => simp [serializeString] at h
  | array _ => simp [serializeString] at h
  | message _ => simp [serializeString] at h

theorem decodes_DeserializeSingle (w : Nat) (bs : List Nat) (h : bs.length = w) :
    Decodes (DeserializeSingle w) bs (.scalar bs) := by
  subst h
  have h1 := decodes_bind (decodes_readBytes bs) (decodes_pure (Value.scalar bs))
    (g := fun bs' => Dec.pure (Value.scalar bs'))
  simpa using h1

theorem decodes_DeserializeValue {S : TypeSchema → Value → Except SerializeFault (List Nat)}
    {C : TypeSchema → Value → Bool} {D : TypeSchema → Dec Value} (hr : Inverts S C D)
    (kind : FieldKind) (v : Value) (bytes : List Nat)
    (h : serializeValue S kind v = .ok bytes) (hc : withinCeilingValue C kind v = true) :
    Decodes (DeserializeValue D kind) bytes v := by
  cases kind with
  | scalar k =>
    cases v with
    | scalar bs =>
      simp only [serializeValue] at h
      split at h
      · rename_i hw
        simp only [Except.ok.injEq] at h
        subst h
        exact decodes_DeserializeSingle _ _ hw
      · simp at h
    | string _ => simp [serializeValue] at h
    | array _ => simp [serializeValue] at h
    | message _ => simp [serializeValue] at h
  | STRING => exact decodes_DeserializeString false v bytes h
  | WSTRING => exact decodes_DeserializeString true v bytes h
  | MESSAGE s => exact hr s v bytes h hc

theorem decodes_DeserializeArray {elemS : Value → Except SerializeFault (List Nat)}
    {elemC : Value → Bool} {elemD : Dec Value}
    (he : ∀ v bytes, elemS v = .ok bytes → elemC v = true → Decodes elemD bytes v)
    (vs : List Value) : ∀ bytes, serializeArray elemS vs = .ok bytes →
      vs.all elemC = true → Decodes (DeserializeArray elemD vs.length) bytes vs := by
  induction vs with
  | nil =>
    intro bytes h _
    simp only [serializeArray, Except.ok.injEq] at h
    subst h
    exact decodes_pure _
  | cons v vs ih =>
    intro bytes h hc
    simp only [List.all_cons, Bool.and_eq_true] at hc
    simp only [serializeArray] at h
    cases hv : elemS v with
    | error e => rw [hv] at h; simp at h
    | ok b1 =>
      rw [hv] at h
      simp only at h
      cases hvs : serializeArray elemS vs with
      | error e => rw [hvs] at h; simp at h
      | ok b2 =>
        rw [hvs] at h
        simp only [Except.ok.injEq] at h
        subst h
        have h2 := decodes_bind (ih b2 hvs hc.2) (decodes_pure (v :: vs))
          (g := fun vs' => Dec.pure (v :: vs'))
        have h3 := decodes_bind (he v b1 hv hc.1) h2
          (g := fun v' => Dec.bind (DeserializeArray elemD vs.length)
            (fun vs' => Dec.pure (v' :: vs')))
        simpa using h3

theorem decodes_DeserializeDynamicArray {elemS : Value → Except SerializeFault (List Nat)}
    {elemC : Value → Bool} {elemD : Dec Value}
    (he : ∀ v bytes, elemS v = .ok bytes → elemC v = true → Decodes elemD bytes v)
    (limit : Nat) (vs : List Value) (bytes : List Nat)
    (h : serializeDynamicArray elemS vs = .ok bytes) (hl : vs.length ≤ limit)
    (hc : vs.all elemC = true) :
    Decodes (DeserializeDynamicArray elemD limit) bytes (.array vs) := by
  unfold serializeDynamicArray at h
  split at h
  · rename_i hlt
    cases hvs : serializeArray elemS vs with
    | error e => rw [hvs] at h; simp at h
    | ok b2 =>
      rw [hvs] at h
      simp only [Except.ok.injEq] at h
      subst h
      have h1 := decodes_bind (decodes_DeserializeArray he vs b2 hvs hc)
        (decodes_pure (Value.array vs)) (g := fun vs' => Dec.pure (Value.array vs'))
      have h2 := decodes_bind (decodes_allocate vs.length) h1
        (g := fun _ => Dec.bind (DeserializeArray elemD vs.length)
          (fun vs' => Dec.pure (Value.array vs')))
      have h2' : Decodes (if vs.length > limit then Dec.fail .ArrayBoundExceeded
          else Dec.bind (allocate vs.length) (fun _ => Dec.bind (DeserializeArray elemD vs.length)
            (fun vs' => Dec.pure (Value.array vs')))) ([] ++ (b2 ++ [])) (Value.array vs) := by
        rw [if_neg (by omega)]; exact h2
      have h3 := decodes_bind (decodes_DeserializeArraySize vs.length hlt) h2'
        (g := fun n => if n > limit then Dec.fail .ArrayBoundExceeded
          else Dec.bind (allocate n) (fun _ => Dec.bind (DeserializeArray elemD n)
            (fun vs' => Dec.pure (Value.array vs'))))
      simpa using h3
  · simp at h

theorem decodes_DeserializeMember (cfg : CodecConfig)
    {S : TypeSchema → Value → Except SerializeFault (List Nat)}
    {C : TypeSchema → Value → Bool} {D : TypeSchema → Dec Value} (hr : Inverts S C D)
    (f : FieldDescriptor) (v : Value) (bytes : List Nat)
    (h : serializeMember S f v = .ok bytes) (hc : withinCeilingMember cfg C f v = true) :
    Decodes (DeserializeMember cfg D f) bytes v := by
  have he : ∀ kind v bytes, serializeValue S kind v = .ok bytes →
      withinCeilingValue C kind v = true → Decodes (DeserializeValue D kind) bytes v :=
    fun kind v bytes => decodes_DeserializeValue hr kind v bytes
  obtain ⟨name, kind, shape, off⟩ := f
  cases shape with
  | SCALAR =>
    simp only [serializeMember] at h
    simp only [withinCeilingMember] at hc
    exact he kind v bytes h hc
  | FIXED n =>
    cases v with
    | array vs =>
      simp only [serializeMember] at h
      simp only [withinCeilingMember] at hc
      split at h
      · rename_i hn
        subst hn
        have h1 := decodes_bind (decodes_DeserializeArray (he kind) vs bytes h hc)
          (decodes_pure (Value.array vs)) (g := fun vs' => Dec.pure (Value.array vs'))
        simpa using h1
      · simp at h
    | scalar _ => simp [serializeMember] at h
    | string _ => simp [serializeMember] at h
    | message _ => simp [serializeMember] at h
  | BOUNDED n =>
    cases v with
    | array vs =>
      simp only [serializeMember] at h
      simp only [withinCeilingMember] at hc
      split at h
      · rename_i hn
        exact decodes_DeserializeDynamicArray (he kind) n vs bytes h hn hc
      · simp at h
    | scalar _ => simp [serializeMember] at h
    | string _ => simp [serializeMember] at h
    | message _ => simp [serializeMember] at h
  | UNBOUNDED =>
    cases v with
    | array vs =>
      simp only [serializeMember] at h
      simp only [withinCeilingMember, Bool.and_eq_true, decide_eq_true_eq] at hc
      exact decodes_DeserializeDynamicArray (he kind) cfg.max_unbounded vs bytes h hc.1 hc.2
    | scalar _ => simp [serializeMember] at h
    | string _ => simp [serializeMember] at h
    | message _ => simp [serializeMember] at h

theorem decodes_DeserializeMembers (cfg : CodecConfig)
    {S : TypeSchema → Value → Except SerializeFault (List Nat)}
    {C : TypeSchema → Value → Bool} {D : TypeSchema → Dec Value} (hr : Inverts S C D)
    (fs : List FieldDescriptor) : ∀ (vs : List Value) (bytes : List Nat),
      serializeMembers S fs vs = .ok bytes → withinCeilingMembers cfg C fs vs = true →
      Decodes (DeserializeMembers cfg D fs) bytes vs := by
  induction fs with
  | nil =>
    intro vs bytes h _
    cases vs with
    | nil =>
      simp only [serializeMembers, Except.ok.injEq] at h
      subst h
      exact decodes_pure _
    | cons v vs => simp [serializeMembers] at h
  | cons f fs ih =>
    intro vs bytes h hc
    cases vs with
    | nil => simp [serializeMembers] at h
    | cons v vs =>
      simp only [withinCeilingMembers, Bool.and_eq_true] at hc
      simp only [serializeMembers] at h
      cases hv : serializeMember S f v with
      | error e => rw [hv] at h; simp at h
      | ok b1 =>
        rw [hv] at h
        simp only at h
        cases hvs : serializeMembers S fs vs with
        | error e => rw [hvs] at h; simp at h
        | ok b2 =>
          rw [hvs] at h
          simp only [Except.ok.injEq] at h
          subst h
          have h2 := decodes_bind (ih vs b2 hvs hc.2) (decodes_pure (v :: vs))
            (g := fun vs' => Dec.pure (v :: vs'))
          have h3 := decodes_bind (decodes_DeserializeMember cfg hr f v b1 hv hc.1) h2
            (g := fun v' => Dec.bind (DeserializeMembers cfg D fs)
              (fun vs' => Dec.pure (v' :: vs')))
          simpa using h3

theorem decodes_DeserializeMessage (cfg : CodecConfig) (depth : Nat) :
    Inverts (serializeMessage depth) (withinCeiling cfg depth) (DeserializeMessage cfg depth) := by
  induction depth with
  | zero =>
    intro s v bytes h _
    simp [serializeMessage] at h
  | succ d ih =>
    intro s v bytes h hc
    cases v with
    | message vs =>
      simp only [serializeMessage] at h
      simp only [withinCeiling] at hc
      have h1 := decodes_bind (decodes_DeserializeMembers cfg ih s.fields vs bytes h hc)
        (decodes_pure (Value.message vs)) (g := fun vs' => Dec.pure (Value.message vs'))
      simpa using h1
    | scalar _ => simp [serializeMessage] at h
    | string _ => simp [serializeMessage] at h
    | array _ => simp [serializeMessage] at h

theorem holds_memOf (bs : List Nat) : Holds ⟨memOf bs, bs.length⟩ 0 bs := by
  refine ⟨by simp, ?_⟩
  intro i _
  simp [memOf]

/-! ## Part 8. The codec claims -/

theorem DeserializeMembers_cons (cfg : CodecConfig) (recur : TypeSchema → Dec Value)
    (f : FieldDescriptor) (fs : List FieldDescriptor) :
    DeserializeMembers cfg recur (f :: fs) =
      Dec.bind (DeserializeMember cfg recur f) (fun v =>
        Dec.bind (DeserializeMembers cfg recur fs) (fun vs => Dec.pure (v :: vs))) := rfl

theorem members_fail_propagates (cfg : CodecConfig) (recur : TypeSchema → Dec Value)
    (f : FieldDescriptor) (post : List FieldDescriptor) (b : Buffer) (e : CodecError)
    (c c' : Cursor) (hf : DeserializeMember cfg recur f b c = .fail e c')
    (pre : List FieldDescriptor) : ∀ (c0 : Cursor) (vs : List Value),
      DeserializeMembers cfg recur pre b c0 = .ok vs c →
      DeserializeMembers cfg recur (pre ++ f :: post) b c0 = .fail e c' := by
  induction pre with
  | nil =>
    intro c0 vs h
    simp only [DeserializeMembers, dec_pure_def, Dec.pure, Outcome.ok.injEq] at h
    obtain ⟨_, rfl⟩ := h
    simp only [List.nil_append, DeserializeMembers, dec_bind_def, Dec.bind, hf]
  | cons g pre ih =>
    intro c0 vs h
    rw [DeserializeMembers_cons] at h
    rw [List.cons_append, DeserializeMembers_cons]
    simp only [Dec.bind, Dec.pure] at h ⊢
    cases hg : DeserializeMember cfg recur g b c0 with
    | fail e1 c1 => rw [hg] at h; simp at h
    | ok v1 c1 =>
      rw [hg] at h
      simp only at h ⊢
      cases hp : DeserializeMembers cfg recur pre b c1 with
      | fail e2 c2 => rw [hp] at h; simp at h
      | ok v2 c2 =>
        rw [hp] at h
        simp only [Outcome.ok.injEq] at h
        obtain ⟨_, rfl⟩ := h
        rw [ih c1 v2 hp]

theorem bounded_member_rejects (cfg : CodecConfig) (recur : TypeSchema → Dec Value)
    (name : String) (kind : FieldKind) (N off : Nat) (b : Buffer) (c : Cursor)
    (hrem : 4 ≤ b.size - c.pos)
    (hcount : N < decodeCount ((List.range' c.pos 4).map b.data)) :
    DeserializeMember cfg recur (.mk name kind (.BOUNDED N) off) b c =
      .fail .ArrayBoundExceeded
        { c with pos := c.pos + 4, reads := c.reads ++ List.range' c.pos 4 } := by
  simp only [DeserializeMember, DeserializeDynamicArray, DeserializeArraySize, dec_bind_def,
    dec_pure_def, Dec.bind, Dec.pure, readBytes, if_pos hrem]
  rw [if_pos hcount]
  rfl

/-- C1: every read of `Deserialize` goes through the check against the bytes
remaining up to `size`.  The checked read fails with `TruncatedInput`, consuming
nothing, when fewer bytes remain than it needs; no index at or beyond `size` is
ever read; bytes at or beyond `size` have no influence on the result; and if a
buffer decodes successfully using its first `c.pos` bytes, then `c.pos ≤ size`
and the same bytes with any shorter length `k < c.pos` fail with `TruncatedInput`. -/
theorem deserialize_checks_every_read (cfg : CodecConfig) (members_ : TypeSchema)
    (data : Nat → Nat) (size : Nat) :
    (∀ (n : Nat) (b : Buffer) (c : Cursor), b.size - c.pos < n →
      readBytes n b c = .fail .TruncatedInput c) ∧
    (∀ i ∈ (Deserialize cfg members_ data size).cursor.reads, i < size) ∧
    (∀ data' : Nat → Nat, (∀ i, i < size → data' i = data i) →
      Deserialize cfg members_ data' size = Deserialize cfg members_ data size) ∧
    (∀ v c, Deserialize cfg members_ data size = .ok v c →
      c.pos ≤ size ∧
      ∀ k, k < c.pos → ∃ c', Deserialize cfg members_ data k = .fail .TruncatedInput c') := by
  have hck := checked_DeserializeMessage cfg cfg.max_depth members_
  refine ⟨?_, ?_, ?_, ?_⟩
  · intro n b c h
    unfold readBytes
    rw [if_neg (by omega)]
  · exact hck.safe ⟨data, size⟩ ⟨0, [], []⟩ (by intro i hi; simp at hi)
  · intro data' h
    exact hck.agree data data' size ⟨0, [], []⟩ h
  · intro v c h
    have hfail : ∀ k, k < c.pos →
        ∃ c', Deserialize cfg members_ data k = .fail .TruncatedInput c' :=
      fun k hk => hck.shrink_fail data size k ⟨0, [], []⟩ v c h (Nat.zero_le _) hk
    refine ⟨?_, hfail⟩
    by_contra hlt
    obtain ⟨c', hc'⟩ := hfail size (by omega)
    rw [h] at hc'
    simp at hc'

theorem deserialize_checks_every_read_witness :
    (Deserialize defaultConfig scenarioA_schema (memOf scenarioA_bytes) 13).cursor.pos ≤ 13 ∧
    ∃ c', Deserialize defaultConfig scenarioA_schema (memOf scenarioA_bytes) 12 =
      .fail .TruncatedInput c' :=
  have h := (deserialize_checks_every_read defaultConfig scenarioA_schema
    (memOf scenarioA_bytes) 13).2.2.2 scenarioA_instance
    (Deserialize defaultConfig scenarioA_schema (memOf scenarioA_bytes) 13).cursor rfl
  ⟨h.1, h.2 12 (by decide)⟩

/-- C2, as stated, fails: with a configured maximum of one element, the
instance whose UNBOUNDED array holds two elements serializes, and decoding the
produced bytes is rejected instead of returning the instance. -/
theorem roundtrip_fails_beyond_ceiling :
    ¬ ∀ (cfg : CodecConfig) (S : TypeSchema) (M : Value) (bytes : List Nat),
      serialize cfg S M = .ok bytes →
      ∃ c, Deserialize cfg S (memOf bytes) bytes.length = .ok M c := by
  intro h
  obtain ⟨c, hc⟩ := h ⟨1, 64⟩
    (.mk [.mk "a" (.scalar .UINT8) .UNBOUNDED 0] "U" "" 24)
    (.message [.array [.scalar [1], .scalar [2]]]) [2, 0, 0, 0, 1, 2] rfl
  have h2 : Deserialize ⟨1, 64⟩ (.mk [.mk "a" (.scalar .UINT8) .UNBOUNDED 0] "U" "" 24)
      (memOf [2, 0, 0, 0, 1, 2]) 6 =
      .fail .ArrayBoundExceeded ⟨4, [0, 1, 2, 3], []⟩ := rfl
  have h3 : ([2, 0, 0, 0, 1, 2] : List Nat).length = 6 := rfl
  rw [h3, h2] at hc
  simp at hc

/-- C2, amended: for every schema S and every instance M that serializes under
S and whose UNBOUNDED arrays hold at most the configured maximum of elements,
deserializing the produced bytes yields exactly M and consumes exactly those
bytes. -/
theorem roundtrip_within_ceiling (cfg : CodecConfig) (S : TypeSchema) (M : Value)
    (bytes : List Nat) (hs : serialize cfg S M = .ok bytes)
    (hc : withinCeiling cfg cfg.max_depth S M = true) :
    ∃ c, Deserialize cfg S (memOf bytes) bytes.length = .ok M c ∧ c.pos = bytes.length := by
  obtain ⟨c, h1, h2⟩ := decodes_DeserializeMessage cfg cfg.max_depth S M bytes hs hc
    ⟨memOf bytes, bytes.length⟩ ⟨0, [], []⟩ (holds_memOf bytes)
  exact ⟨c, h1, by simpa using h2⟩

theorem roundtrip_within_ceiling_witness :
    serialize defaultConfig scenarioA_schema scenarioA_instance = .ok scenarioA_bytes ∧
    ∃ c, Deserialize defaultConfig scenarioA_schema (memOf scenarioA_bytes)
      scenarioA_bytes.length = .ok scenarioA_instance c ∧ c.pos = scenarioA_bytes.length :=
  ⟨rfl, roundtrip_within_ceiling defaultConfig scenarioA_schema scenarioA_instance
    scenarioA_bytes rfl rfl⟩

theorem array_fail_propagates (elem : Dec Value) (b : Buffer) (e : CodecError)
    (c2 c' : Cursor) (he : elem b c2 = .fail e c') (i : Nat) :
    ∀ (n : Nat) (c1 : Cursor) (es : List Value), i < n →
      DeserializeArray elem i b c1 = .ok es c2 →
      DeserializeArray elem n b c1 = .fail e c' := by
  induction i with
  | zero =>
    intro n c1 es hn h
    simp only [DeserializeArray, dec_pure_def, Dec.pure, Outcome.ok.injEq] at h
    obtain ⟨_, rfl⟩ := h
    obtain ⟨m, rfl⟩ := Nat.exists_eq_succ_of_ne_zero (Nat.ne_of_gt hn)
    simp only [DeserializeArray, dec_bind_def, Dec.bind, he]
  | succ i ih =>
    intro n c1 es hn h
    obtain ⟨m, rfl⟩ := Nat.exists_eq_succ_of_ne_zero (Nat.ne_of_gt (Nat.lt_of_le_of_lt (Nat.zero_le _) hn))
    simp only [DeserializeArray, dec_bind_def, dec_pure_def, Dec.bind, Dec.pure] at h ⊢
    cases hv : elem b c1 with
    | fail e1 cx => rw [hv] at h; simp at h
    | ok v cx =>
      rw [hv] at h
      simp only at h ⊢
      cases hrest : DeserializeArray elem i b cx with
      | fail e2 cy => rw [hrest] at h; simp at h
      | ok vs cy =>
        rw [hrest] at h
        simp only [Outcome.ok.injEq] at h
        obtain ⟨_, rfl⟩ := h
        rw [ih m cx vs (by omega) hrest]

theorem enters_fail_propagates (cfg : CodecConfig) (b : Buffer) (recur : TypeSchema → Dec Value)
    (g : FieldDescriptor) (c1 c2 c' : Cursor) (S' : TypeSchema) (e : CodecError)
    (hen : EntersElement cfg b (recur S') g c1 S' c2)
    (he : recur S' b c2 = .fail e c') :
    DeserializeMember cfg recur g b c1 = .fail e c' := by
  cases hen
  case scalar =>
    simp only [DeserializeMember, DeserializeValue]
    exact he
  case fixed =>
    rename_i name off n i es hi harr
    have h := array_fail_propagates (recur S') b e c2 c' he i n c1 es hi harr
    simp only [DeserializeMember, DeserializeValue, dec_bind_def, Dec.bind, h]
  case bounded =>
    rename_i name off m n i cA es hle hi hsize harr
    have h := array_fail_propagates (recur S') b e c2 c' he i n _ es hi harr
    simp only [DeserializeMember, DeserializeValue, DeserializeDynamicArray, dec_bind_def,
      Dec.bind, hsize]
    rw [if_neg (by omega)]
    simp only [dec_bind_def, Dec.bind, allocate, h]
  case unbounded =>
    rename_i name off n i cA es hle hi hsize harr
    have h := array_fail_propagates (recur S') b e c2 c' he i n _ es hi harr
    simp only [DeserializeMember, DeserializeValue, DeserializeDynamicArray, dec_bind_def,
      Dec.bind, hsize]
    rw [if_neg (by omega)]
    simp only [dec_bind_def, Dec.bind, allocate, h]

theorem message_fail_of_members (cfg : CodecConfig) (d : Nat) (S : TypeSchema) (b : Buffer)
    (c0 c' : Cursor) (e : CodecError)
    (h : DeserializeMembers cfg (DeserializeMessage cfg d) S.fields b c0 = .fail e c') :
    DeserializeMessage cfg (d + 1) S b c0 = .fail e c' := by
  simp only [DeserializeMessage, dec_bind_def, Dec.bind, h]

/-- A failure of the member the decoder has got to is the failure of the whole
message, with the same error and cursor, at whatever level the member sits. -/
theorem arrives_fail_propagates (cfg : CodecConfig) (b : Buffer) (depth : Nat)
    (S : TypeSchema) (c0 : Cursor) (d : Nat) (f : FieldDescriptor) (c c' : Cursor)
    (e : CodecError) (ha : Arrives cfg b depth S c0 d f c)
    (hf : DeserializeMember cfg (DeserializeMessage cfg d) f b c = .fail e c') :
    DeserializeMessage cfg depth S b c0 = .fail e c' := by
  induction ha with
  | direct d S pre post f vs c0 c hS hpre =>
    apply message_fail_of_members
    rw [hS]
    exact members_fail_propagates cfg _ f post b e c c' hf pre c0 vs hpre
  | nested depth S pre post g vs c0 c1 c2 S' d f c hS hpre hen _ ih =>
    apply message_fail_of_members
    rw [hS]
    have hg := enters_fail_propagates cfg b (DeserializeMessage cfg depth) g c1 c2 c' S' e hen
      (ih hf)
    exact members_fail_propagates cfg _ g post b e c1 c' hg pre c0 vs hpre

/-- C3: when the 4-byte count read for a BOUNDED(N) member is greater than N,
the member fails with `ArrayBoundExceeded` having consumed the count only and
allocated nothing; and deserialization of any message in which the decoder
gets to that member at cursor `c`, be it a field of the message itself or of a
message nested in it at any level (also as an array element), fails as a
whole with `ArrayBoundExceeded`, its allocations being those made before the
bogus count was read. -/
theorem bounded_count_validated_before_use (cfg : CodecConfig) (name : String)
    (kind : FieldKind) (N off : Nat) (data : Nat → Nat) (size : Nat) (c : Cursor)
    (hrem : 4 ≤ size - c.pos)
    (hcount : N < decodeCount ((List.range' c.pos 4).map data)) :
    (∀ recur : TypeSchema → Dec Value, ∃ c',
      DeserializeMember cfg recur (.mk name kind (.BOUNDED N) off) ⟨data, size⟩ c =
        .fail .ArrayBoundExceeded c' ∧ c'.allocs = c.allocs ∧ c'.pos = c.pos + 4) ∧
    (∀ (S : TypeSchema) (pre post : List FieldDescriptor) (d : Nat) (vs : List Value),
      S.fields = pre ++ .mk name kind (.BOUNDED N) off :: post →
      cfg.max_depth = d + 1 →
      DeserializeMembers cfg (DeserializeMessage cfg d) pre ⟨data, size⟩ ⟨0, [], []⟩ = .ok vs c →
      ∃ c', Deserialize cfg S data size = .fail .ArrayBoundExceeded c' ∧
        c'.allocs = c.allocs) ∧
    (∀ (S : TypeSchema) (d : Nat),
      Arrives cfg ⟨data, size⟩ cfg.max_depth S ⟨0, [], []⟩ d
        (.mk name kind (.BOUNDED N) off) c →
      ∃ c', Deserialize cfg S data size = .fail .ArrayBoundExceeded c' ∧
        c'.allocs = c.allocs ∧ c'.pos = c.pos + 4) := by
  refine ⟨?_, ?_, ?_⟩
  · intro recur
    exact ⟨_, bounded_member_rejects cfg recur name kind N off ⟨data, size⟩ c hrem hcount,
      rfl, rfl⟩
  · intro S pre post d vs hS hd hpre
    have hm := members_fail_propagates cfg (DeserializeMessage cfg d) _ post ⟨data, size⟩ _ c _
      (bounded_member_rejects cfg (DeserializeMessage cfg d) name kind N off ⟨data, size⟩ c
        hrem hcount) pre ⟨0, [], []⟩ vs hpre
    refine ⟨{ c with pos := c.pos + 4, reads := c.reads ++ List.range' c.pos 4 }, ?_, rfl⟩
    unfold Deserialize
    rw [hd]
    simp only [DeserializeMessage, dec_bind_def, Dec.bind, hS, hm]
  · intro S d ha
    refine ⟨{ c with pos := c.pos + 4, reads := c.reads ++ List.range' c.pos 4 }, ?_, rfl, rfl⟩
    unfold Deserialize
    exact arrives_fail_propagates cfg ⟨data, size⟩ cfg.max_depth S ⟨0, [], []⟩ d _ c _ _ ha
      (bounded_member_rejects cfg (DeserializeMessage cfg d) name kind N off ⟨data, size⟩ c
        hrem hcount)

theorem bounded_count_validated_before_use_witness :
    (∃ c', Deserialize defaultConfig boundedExample_schema (memOf [7, 3, 0, 0, 0, 1, 2, 3]) 8 =
      .fail .ArrayBoundExceeded c' ∧ c'.allocs = []) ∧
    (∃ c', Deserialize defaultConfig nestedExample_schema (memOf [7, 3, 0, 0, 0, 1, 2, 3]) 8 =
      .fail .ArrayBoundExceeded c' ∧ c'.allocs = [] ∧ c'.pos = 1 + 4) ∧
    (∃ c', Deserialize defaultConfig nestedArrayExample_schema
        (memOf [2, 0, 0, 0, 7, 1, 0, 0, 0, 9, 8, 3, 0, 0, 0, 1, 2, 3]) 18 =
      .fail .ArrayBoundExceeded c' ∧ c'.allocs = [2, 1] ∧ c'.pos = 11 + 4) :=
  ⟨(bounded_count_validated_before_use defaultConfig "a" (.scalar .UINT8) 2 8
      (memOf [7, 3, 0, 0, 0, 1, 2, 3]) 8 ⟨1, [0], []⟩ (by decide) (by decide)).2.1
      boundedExample_schema [.mk "n" (.scalar .UINT8) .SCALAR 0] [] 63 [.scalar [7]]
      rfl rfl rfl,
   (bounded_count_validated_before_use defaultConfig "a" (.scalar .UINT8) 2 8
      (memOf [7, 3, 0, 0, 0, 1, 2, 3]) 8 ⟨1, [0], []⟩ (by decide) (by decide)).2.2
      nestedExample_schema 62
      (.nested 63 nestedExample_schema [] []
        (.mk "inner" (.MESSAGE boundedExample_schema) .SCALAR 0) [] ⟨0, [], []⟩ ⟨0, [], []⟩
        ⟨0, [], []⟩ boundedExample_schema 62 _ ⟨1, [0], []⟩ rfl rfl
        (.scalar "inner" boundedExample_schema 0 ⟨0, [], []⟩)
        (.direct 62 boundedExample_schema [.mk "n" (.scalar .UINT8) .SCALAR 0] [] _
          [.scalar [7]] ⟨0, [], []⟩ ⟨1, [0], []⟩ rfl rfl)),
   (bounded_count_validated_before_use defaultConfig "a" (.scalar .UINT8) 2 8
      (memOf [2, 0, 0, 0, 7, 1, 0, 0, 0, 9, 8, 3, 0, 0, 0, 1, 2, 3]) 18
      ⟨11, [0, 1, 2, 3, 4, 5, 6, 7, 8, 9, 10], [2, 1]⟩ (by decide) (by decide)).2.2
      nestedArrayExample_schema 62
      (.nested 63 nestedArrayExample_schema [] []
        (.mk "items" (.MESSAGE boundedExample_schema) .UNBOUNDED 0) [] ⟨0, [], []⟩ ⟨0, [], []⟩
        ⟨10, [0, 1, 2, 3, 4, 5, 6, 7, 8, 9], [2, 1]⟩ boundedExample_schema 62 _
        ⟨11, [0, 1, 2, 3, 4, 5, 6, 7, 8, 9, 10], [2, 1]⟩ rfl rfl
        (.unbounded "items" boundedExample_schema 0 2 1 ⟨0, [], []⟩ ⟨4, [0, 1, 2, 3], []⟩
          ⟨10, [0, 1, 2, 3, 4, 5, 6, 7, 8, 9], [2, 1]⟩
          [.message [.scalar [7], .array [.scalar [9]]]] rfl (by decide) (by decide) rfl)
        (.direct 62 boundedExample_schema [.mk "n" (.scalar .UINT8) .SCALAR 0] [] _
          [.scalar [8]] ⟨10, [0, 1, 2, 3, 4, 5, 6, 7, 8, 9], [2, 1]⟩
          ⟨11, [0, 1, 2, 3, 4, 5, 6, 7, 8, 9, 10], [2, 1]⟩ rfl rfl))⟩

/-! ## Part 9. Type names, registry and publisher creation -/

theorem get_registered_congr (w w' : World) (node : Nat) (n : String)
    (h : w'.registry = w.registry) :
    _get_registered_type w' node n = _get_registered_type w node n := by
  unfold _get_registered_type
  rw [h]

theorem get_registered_after_append (w : World) (node : Nat) (ts : TypeSupportObject)
    (na : Nat) (calls : List RegistryCall) (h : _get_registered_type w node ts.name = none) :
    _get_registered_type ⟨w.registry ++ [(node, ts.name, ts)], na, calls⟩
      node ts.name = some ts := by
  unfold _get_registered_type at h ⊢
  simp only [Option.map_eq_none'] at h
  simp only [List.find?_append, h, Option.none_or]
  simp

theorem get_or_create_built (node : Nat) (members : Option MessageMembers) (id : String)
    (w : World) (h : _get_registered_type w node (_create_type_name members id).1 = none)
    (hb : buildable members id = true) :
    get_or_create_type_support node members id w =
      (some ⟨w.next_address, (_create_type_name members id).1, id⟩,
       ⟨w.registry ++ [(node, (_create_type_name members id).1,
          ⟨w.next_address, (_create_type_name members id).1, id⟩)],
        w.next_address + 1,
        w.calls ++ [.create_message_type_support id
            (some ⟨w.next_address, (_create_type_name members id).1, id⟩)] ++
          [.register_type node
            (some ⟨w.next_address, (_create_type_name members id).1, id⟩) id]⟩) := by
  unfold buildable at hb
  have hreg' : _get_registered_type
      ⟨w.registry, w.next_address + 1,
        w.calls ++ [RegistryCall.create_message_type_support id
          (some ⟨w.next_address, (_create_type_name members id).1, id⟩)]⟩
      node (_create_type_name members id).1 = none := by
    exact (get_registered_congr w _ node _ rfl).trans h
  simp only [get_or_create_type_support, h, _create_message_type_support, hb, if_true,
    _register_type, hreg']

theorem get_or_create_unbuilt (node : Nat) (members : Option MessageMembers) (id : String)
    (w : World) (h : _get_registered_type w node (_create_type_name members id).1 = none)
    (hb : buildable members id = false) :
    get_or_create_type_support node members id w =
      (none, ⟨w.registry, w.next_address,
        w.calls ++ [.create_message_type_support id none] ++
          [.register_type node none id]⟩) := by
  unfold buildable at hb
  simp [get_or_create_type_support, h, _create_message_type_support, hb, _register_type]

/-- When the type name is registered, the get-or-create step returns the
registered type support and changes nothing. -/
theorem get_or_create_found (node : Nat) (members : Option MessageMembers) (id : String)
    (w : World) (ts : TypeSupportObject)
    (h : _get_registered_type w node (_create_type_name members id).1 = some ts) :
    get_or_create_type_support node members id w = (some ts, w) := by
  unfold get_or_create_type_support
  simp only [h]

/-- After the get-or-create step has left a type support in `type_support_`,
that type support is the one registered under the type name. -/
theorem get_or_create_registers (node : Nat) (members : Option MessageMembers) (id : String)
    (w : World) (ts : TypeSupportObject)
    (h : (get_or_create_type_support node members id w).1 = some ts) :
    _get_registered_type (get_or_create_type_support node members id w).2 node
      (_create_type_name members id).1 = some ts := by
  cases hreg : _get_registered_type w node (_create_type_name members id).1 with
  | some ts0 =>
    rw [get_or_create_found node members id w ts0 hreg] at h ⊢
    simp only [Option.some.injEq] at h
    subst h
    exact hreg
  | none =>
    cases hb : buildable members id with
    | true =>
      rw [get_or_create_built node members id w hreg hb] at h ⊢
      simp only [Option.some.injEq] at h
      subst h
      exact get_registered_after_append w node
        ⟨w.next_address, (_create_type_name members id).1, id⟩ _ _ hreg
    | false =>
      rw [get_or_create_unbuilt node members id w hreg hb] at h
      simp at h

theorem constructions_append_built (w : World) (id : String) (ts : TypeSupportObject)
    (r : List (Nat × String × TypeSupportObject)) (na node : Nat)
    (x : Option TypeSupportObject) :
    World.constructions ⟨r, na, w.calls ++ [.create_message_type_support id (some ts)] ++
      [.register_type node x id]⟩ = w.constructions + 1 := by
  simp [World.constructions, List.filter_append]

theorem constructions_append_unbuilt (w : World) (id : String)
    (r : List (Nat × String × TypeSupportObject)) (na node : Nat)
    (x : Option TypeSupportObject) :
    World.constructions ⟨r, na, w.calls ++ [.create_message_type_support id none] ++
      [.register_type node x id]⟩ = w.constructions := by
  simp [World.constructions, List.filter_append]

/-- Every call of `rmw_create_publisher` either returns `nullptr` before the
get-or-create step, leaving the registry as it was, or runs that step for the
obtained type support and returns a publisher exactly when the step left a
type support in `type_support_`. -/
theorem rmw_create_publisher_cases (ext : Externals) (node : Option rmw_node_t)
    (type_supports : Option TypeSupports) (topic_name : Option String)
    (qos_profile : Option rmw_qos_profile_t)
    (publisher_options : Option rmw_publisher_options_t) (w : World) :
    rmw_create_publisher ext node type_supports topic_name qos_profile publisher_options w
        = (none, w) ∨
    ∃ n tss h, node = some n ∧ type_supports = some tss ∧ obtain_typesupport tss = some h ∧
      (rmw_create_publisher ext node type_supports topic_name qos_profile
          publisher_options w).2 =
        (get_or_create_type_support n.id h.data h.typesupport_identifier w).2 ∧
      (((rmw_create_publisher ext node type_supports topic_name qos_profile
            publisher_options w).1 = none ∧
          (get_or_create_type_support n.id h.data h.typesupport_identifier w).1 = none) ∨
        ∃ p, (rmw_create_publisher ext node type_supports topic_name qos_profile
            publisher_options w).1 = some p ∧
          p.data.type_support_ =
            (get_or_create_type_support n.id h.data h.typesupport_identifier w).1 ∧
          p.data.type_support_ ≠ none) := by
  cases node with
  | none => left; rfl
  | some n =>
  by_cases h1 : n.implementation_identifier ≠ eclipse_zenoh_identifier
  · left; unfold rmw_create_publisher; simp only; rw [if_pos h1]
  cases topic_name with
  | none => left; unfold rmw_create_publisher; simp only; rw [if_neg h1]
  | some topic =>
  by_cases h2 : topic.length = 0
  · left; unfold rmw_create_publisher; simp only; rw [if_neg h1, if_pos h2]
  cases qos_profile with
  | none => left; unfold rmw_create_publisher; simp only; rw [if_neg h1, if_neg h2]
  | some qos =>
  cases publisher_options with
  | none => left; unfold rmw_create_publisher; simp only; rw [if_neg h1, if_neg h2]
  | some opts =>
  cases type_supports with
  | none => left; unfold rmw_create_publisher; simp only; rw [if_neg h1, if_neg h2]
  | some tss =>
  by_cases h3 : ext.is_valid_qos qos = false
  · left; unfold rmw_create_publisher; simp only; rw [if_neg h1, if_neg h2, if_pos h3]
  by_cases h4 : (ext.rmw_validate_full_topic_name topic).1 ≠ RMW_RET_OK
  · left; unfold rmw_create_publisher; simp only
    rw [if_neg h1, if_neg h2, if_neg h3, if_pos h4]
  by_cases h5 : (ext.rmw_validate_full_topic_name topic).2 ≠ RMW_TOPIC_VALID
      ∧ qos.avoid_ros_namespace_conventions = false
  · left; unfold rmw_create_publisher; simp only
    rw [if_neg h1, if_neg h2, if_neg h3, if_neg h4, if_pos h5]
  cases hob : obtain_typesupport tss with
  | none =>
    left; unfold rmw_create_publisher; simp only
    rw [if_neg h1, if_neg h2, if_neg h3, if_neg h4, if_neg h5, hob]
  | some h =>
  by_cases h6 : ext.allocate 0 = false
  · left; unfold rmw_create_publisher; simp only
    rw [if_neg h1, if_neg h2, if_neg h3, if_neg h4, if_neg h5, hob]
    simp only; rw [if_pos h6]
  by_cases h7 : ext.allocate 1 = false
  · left; unfold rmw_create_publisher; simp only
    rw [if_neg h1, if_neg h2, if_neg h3, if_neg h4, if_neg h5, hob]
    simp only; rw [if_neg h6, if_pos h7]
  by_cases h8 : ext.allocate 2 = false
  · left; unfold rmw_create_publisher; simp only
    rw [if_neg h1, if_neg h2, if_neg h3, if_neg h4, if_neg h5, hob]
    simp only; rw [if_neg h6, if_neg h7, if_pos h8]
  right
  refine ⟨n, tss, h, rfl, rfl, hob, ?_⟩
  unfold rmw_create_publisher; simp only
  rw [if_neg h1, if_neg h2, if_neg h3, if_neg h4, if_neg h5, hob]
  simp only; rw [if_neg h6, if_neg h7, if_neg h8]
  cases hg : (get_or_create_type_support n.id h.data h.typesupport_identifier w).1 with
  | none => exact ⟨rfl, Or.inl ⟨rfl, rfl⟩⟩
  | some ts => exact ⟨rfl, Or.inr ⟨_, rfl, rfl, by simp⟩⟩

theorem create_publisher_registered (ext : Externals) (n : rmw_node_t) (tss : TypeSupports)
    (h : rosidl_message_type_support_t) (ts : TypeSupportObject)
    (hob : obtain_typesupport tss = some h) (w : World)
    (hreg : _get_registered_type w n.id
      (_create_type_name h.data h.typesupport_identifier).1 = some ts)
    (topic_name : Option String) (qos_profile : Option rmw_qos_profile_t)
    (publisher_options : Option rmw_publisher_options_t) :
    (rmw_create_publisher ext (some n) (some tss) topic_name qos_profile
        publisher_options w).2 = w ∧
    ∀ p, (rmw_create_publisher ext (some n) (some tss) topic_name qos_profile
        publisher_options w).1 = some p → p.data.type_support_ = some ts := by
  rcases rmw_create_publisher_cases ext (some n) (some tss) topic_name qos_profile
    publisher_options w with hc | ⟨n', tss', h', hn, ht, hob', hw, hr⟩
  · rw [hc]
    exact ⟨rfl, fun p hp => by simp at hp⟩
  · simp only [Option.some.injEq] at hn ht
    subst hn ht
    rw [hob] at hob'
    simp only [Option.some.injEq] at hob'
    subst hob'
    rw [get_or_create_found n.id h.data h.typesupport_identifier w ts hreg] at hw hr
    refine ⟨hw, ?_⟩
    intro p hp
    rcases hr with ⟨_, hnone⟩ | ⟨q, hq, hts, _⟩
    · simp at hnone
    · rw [hp] at hq
      simp only [Option.some.injEq] at hq
      subst hq
      exact hts

theorem create_publisher_unregistered (ext : Externals) (n : rmw_node_t) (tss : TypeSupports)
    (h : rosidl_message_type_support_t)
    (hob : obtain_typesupport tss = some h) (w : World)
    (hreg : _get_registered_type w n.id
      (_create_type_name h.data h.typesupport_identifier).1 = none)
    (topic_name : Option String) (qos_profile : Option rmw_qos_profile_t)
    (publisher_options : Option rmw_publisher_options_t) :
    ((rmw_create_publisher ext (some n) (some tss) topic_name qos_profile
        publisher_options w).1 = none ∧
      _get_registered_type (rmw_create_publisher ext (some n) (some tss) topic_name qos_profile
        publisher_options w).2 n.id
        (_create_type_name h.data h.typesupport_identifier).1 = none ∧
      (rmw_create_publisher ext (some n) (some tss) topic_name qos_profile
        publisher_options w).2.constructions = w.constructions) ∨
    ∃ p ts, (rmw_create_publisher ext (some n) (some tss) topic_name qos_profile
        publisher_options w).1 = some p ∧ p.data.type_support_ = some ts ∧
      _get_registered_type (rmw_create_publisher ext (some n) (some tss) topic_name qos_profile
        publisher_options w).2 n.id
        (_create_type_name h.data h.typesupport_identifier).1 = some ts ∧
      (rmw_create_publisher ext (some n) (some tss) topic_name qos_profile
        publisher_options w).2.constructions = w.constructions + 1 := by
  rcases rmw_create_publisher_cases ext (some n) (some tss) topic_name qos_profile
    publisher_options w with hc | ⟨n', tss', h', hn, ht, hob', hw, hr⟩
  · rw [hc]
    exact Or.inl ⟨rfl, hreg, rfl⟩
  · simp only [Option.some.injEq] at hn ht
    subst hn ht
    rw [hob] at hob'
    simp only [Option.some.injEq] at hob'
    subst hob'
    rw [hw]
    cases hb : buildable h.data h.typesupport_identifier with
    | false =>
      rw [get_or_create_unbuilt n.id h.data h.typesupport_identifier w hreg hb] at hr ⊢
      rcases hr with ⟨hnone, _⟩ | ⟨q, _, hts, hne⟩
      · refine Or.inl ⟨hnone, ?_, ?_⟩
        · exact (get_registered_congr w _ n.id _ rfl).trans hreg
        · exact constructions_append_unbuilt w _ _ _ _ _
      · exact absurd hts hne
    | true =>
      have hgoc := get_or_create_built n.id h.data h.typesupport_identifier w hreg hb
      have hregd := get_or_create_registers n.id h.data h.typesupport_identifier w
        ⟨w.next_address, (_create_type_name h.data h.typesupport_identifier).1,
          h.typesupport_identifier⟩ (by rw [hgoc])
      rcases hr with ⟨_, hnone⟩ | ⟨q, hq, hts, _⟩
      · rw [hgoc] at hnone
        simp at hnone
      · refine Or.inr ⟨q, _, hq, ?_, hregd, ?_⟩
        · rw [hts, hgoc]
        · rw [hgoc]
          exact constructions_append_built w _ _ _ _ _ _

theorem create_publishers_registered (ext : Externals) (n : rmw_node_t) (tss : TypeSupports)
    (h : rosidl_message_type_support_t) (ts : TypeSupportObject)
    (hob : obtain_typesupport tss = some h)
    (args : List (Option String × Option rmw_qos_profile_t × Option rmw_publisher_options_t)) :
    ∀ w, _get_registered_type w n.id
        (_create_type_name h.data h.typesupport_identifier).1 = some ts →
      (create_publishers ext (some n) (some tss) args w).2 = w ∧
      ∀ p, some p ∈ (create_publishers ext (some n) (some tss) args w).1 →
        p.data.type_support_ = some ts := by
  induction args with
  | nil =>
    intro w _
    exact ⟨rfl, fun p hp => by simp [create_publishers] at hp⟩
  | cons a rest ih =>
    intro w hreg
    obtain ⟨hw, hp⟩ := create_publisher_registered ext n tss h ts hob w hreg a.1 a.2.1 a.2.2
    simp only [create_publishers]
    rw [hw]
    obtain ⟨hw2, hp2⟩ := ih w hreg
    refine ⟨hw2, ?_⟩
    intro p hmem
    simp only [List.mem_cons] at hmem
    rcases hmem with hmem | hmem
    · exact hp p hmem.symm
    · exact hp2 p hmem

theorem create_publishers_unregistered (ext : Externals) (n : rmw_node_t) (tss : TypeSupports)
    (h : rosidl_message_type_support_t) (hob : obtain_typesupport tss = some h)
    (args : List (Option String × Option rmw_qos_profile_t × Option rmw_publisher_options_t)) :
    ∀ w, _get_registered_type w n.id
        (_create_type_name h.data h.typesupport_identifier).1 = none →
      ((∀ r ∈ (create_publishers ext (some n) (some tss) args w).1, r = none) ∧
        (create_publishers ext (some n) (some tss) args w).2.constructions = w.constructions) ∨
      (∃ ts, (∀ p, some p ∈ (create_publishers ext (some n) (some tss) args w).1 →
          p.data.type_support_ = some ts) ∧
        (create_publishers ext (some n) (some tss) args w).2.constructions =
          w.constructions + 1) := by
  induction args with
  | nil =>
    intro w _
    exact Or.inl ⟨fun r hr => by simp [create_publishers] at hr, rfl⟩
  | cons a rest ih =>
    intro w hreg
    simp only [create_publishers]
    rcases create_publisher_unregistered ext n tss h hob w hreg a.1 a.2.1 a.2.2 with
      ⟨h1, h2, h3⟩ | ⟨p, ts, h1, h2, h3, h4⟩
    · rcases ih _ h2 with ⟨i1, i2⟩ | ⟨ts, i1, i2⟩
      · refine Or.inl ⟨?_, by rw [i2, h3]⟩
        intro r hr
        simp only [List.mem_cons] at hr
        rcases hr with hr | hr
        · rw [hr, h1]
        · exact i1 r hr
      · refine Or.inr ⟨ts, ?_, by rw [i2, h3]⟩
        intro q hq
        simp only [List.mem_cons] at hq
        rcases hq with hq | hq
        · rw [h1] at hq; simp at hq
        · exact i1 q hq
    · obtain ⟨i1, i2⟩ := create_publishers_registered ext n tss h ts hob rest _ h3
      refine Or.inr ⟨ts, ?_, by rw [i1, h4]⟩
      intro q hq
      simp only [List.mem_cons] at hq
      rcases hq with hq | hq
      · rw [h1] at hq
        simp only [Option.some.injEq] at hq
        subst hq
        exact h2
      · exact i2 q hq

theorem create_publishers_unobtained (ext : Externals) (n : rmw_node_t) (tss : TypeSupports)
    (hob : obtain_typesupport tss = none)
    (args : List (Option String × Option rmw_qos_profile_t × Option rmw_publisher_options_t))
    (w : World) :
    (∀ r ∈ (create_publishers ext (some n) (some tss) args w).1, r = none) ∧
    (create_publishers ext (some n) (some tss) args w).2 = w := by
  induction args with
  | nil => exact ⟨fun r hr => by simp [create_publishers] at hr, rfl⟩
  | cons a rest ih =>
    have hc : rmw_create_publisher ext (some n) (some tss) a.1 a.2.1 a.2.2 w = (none, w) := by
      rcases rmw_create_publisher_cases ext (some n) (some tss) a.1 a.2.1 a.2.2 w with
        hc | ⟨n', tss', h', hn, ht, hob', _, _⟩
      · exact hc
      · simp only [Option.some.injEq] at ht
        subst ht
        rw [hob] at hob'
        simp at hob'
    simp only [create_publishers, hc]
    refine ⟨?_, ih.2⟩
    intro r hr
    simp only [List.mem_cons] at hr
    rcases hr with hr | hr
    · exact hr
    · exact ih.1 r hr

theorem type_name_T_some (T : MembersType) (members : MessageMembers) :
    _create_type_name_T T (some members) =
      ((if members.message_namespace_.isEmpty then "" else members.message_namespace_ ++ "::")
        ++ "dps_::" ++ members.message_name_ ++ "_", none) := rfl

theorem append_underscore_ne_empty (s : String) : s ++ "_" ≠ "" := by
  intro h
  have h1 := congrArg String.length h
  rw [String.length_append] at h1
  have h2 : ("_" : String).length = 1 := by decide
  have h3 : ("" : String).length = 0 := by decide
  omega

/-- C4: `_create_type_name(untyped_members, typesupport)` selects by the
identifier string.  For the introspection-C identifier it is the C instance of
the template, for the introspection-C++ identifier the C++ instance, and from
a members handle either instance builds `[namespace::]dps_::name_`, which is
never empty, and sets no error.  For every other identifier it sets the error
"Unknown typesupport identifier" and returns the empty string. -/
theorem create_type_name_selects_by_identifier (untyped_members : Option MessageMembers)
    (typesupport : String) :
    (typesupport = rosidl_typesupport_introspection_c__identifier →
      _create_type_name untyped_members typesupport =
        _create_type_name_T .rosidl_typesupport_introspection_c__MessageMembers
          untyped_members) ∧
    (typesupport = rosidl_typesupport_introspection_cpp_typesupport_identifier →
      _create_type_name untyped_members typesupport =
        _create_type_name_T .rosidl_typesupport_introspection_cpp_MessageMembers
          untyped_members) ∧
    (typesupport ≠ rosidl_typesupport_introspection_c__identifier →
      typesupport ≠ rosidl_typesupport_introspection_cpp_typesupport_identifier →
      _create_type_name untyped_members typesupport =
        ("", some "Unknown typesupport identifier")) ∧
    (∀ (T : MembersType) (members : MessageMembers),
      _create_type_name_T T (some members) =
        ((if members.message_namespace_.isEmpty then ""
            else members.message_namespace_ ++ "::")
          ++ "dps_::" ++ members.message_name_ ++ "_", none) ∧
      (_create_type_name_T T (some members)).1 ≠ "") := by
  refine ⟨?_, ?_, ?_, ?_⟩
  · intro h
    subst h
    rfl
  · intro h
    subst h
    rfl
  · intro h1 h2
    unfold _create_type_name using_introspection_c_typesupport
      using_introspection_cpp_typesupport
    rw [if_neg (by simpa using h1), if_neg (by simpa using h2)]
  · intro T members
    refine ⟨type_name_T_some T members, ?_⟩
    rw [type_name_T_some]
    exact append_underscore_ne_empty _

theorem create_type_name_selects_by_identifier_witness :
    _create_type_name (some ⟨"std_msgs__msg", "String"⟩) "rosidl_typesupport_introspection_c"
      = ("std_msgs__msg::dps_::String_", none) ∧
    _create_type_name (some ⟨"std_msgs::msg", "String"⟩) "rmw_zenoh_pico_dynamic_cpp"
      = ("", some "Unknown typesupport identifier") :=
  ⟨((create_type_name_selects_by_identifier (some ⟨"std_msgs__msg", "String"⟩)
      "rosidl_typesupport_introspection_c").1 rfl).trans (by decide),
   (create_type_name_selects_by_identifier (some ⟨"std_msgs::msg", "String"⟩)
      "rmw_zenoh_pico_dynamic_cpp").2.2.1 (by decide) (by decide)⟩

/-- C5: the get-or-create step is idempotent per node.  When the computed type
name is registered, the step returns exactly the registered type support and
changes nothing (no helper is called, nothing is constructed).  Otherwise it
calls `_create_message_type_support` once and `_register_type` once with the
result, and a type support so built is new, is the step's result, is from then
on the one registered under that name, and is the only construction.  Over any
sequence of `rmw_create_publisher` calls for the same type supports on the same
node, at most one type support is constructed, exactly one when the name was
not registered and some call succeeded, none when it was registered, and all
publishers returned hold the same, non-null type support. -/
theorem get_or_create_idempotent_per_node (ext : Externals) (node : rmw_node_t)
    (type_supports : TypeSupports) :
    (∀ (w : World) (members : Option MessageMembers) (id : String) (ts : TypeSupportObject),
      _get_registered_type w node.id (_create_type_name members id).1 = some ts →
      get_or_create_type_support node.id members id w = (some ts, w)) ∧
    (∀ (w : World) (members : Option MessageMembers) (id : String),
      _get_registered_type w node.id (_create_type_name members id).1 = none →
      (get_or_create_type_support node.id members id w).2.calls =
        w.calls ++ [.create_message_type_support id
            (get_or_create_type_support node.id members id w).1,
          .register_type node.id (get_or_create_type_support node.id members id w).1 id] ∧
      ∀ ts, (get_or_create_type_support node.id members id w).1 = some ts →
        ts.address = w.next_address ∧
        _get_registered_type (get_or_create_type_support node.id members id w).2 node.id
          (_create_type_name members id).1 = some ts ∧
        (get_or_create_type_support node.id members id w).2.constructions =
          w.constructions + 1) ∧
    (∀ (args : List (Option String × Option rmw_qos_profile_t ×
          Option rmw_publisher_options_t)) (w : World),
      (create_publishers ext (some node) (some type_supports) args w).2.constructions
        ≤ w.constructions + 1 ∧
      (∀ p q, some p ∈ (create_publishers ext (some node) (some type_supports) args w).1 →
        some q ∈ (create_publishers ext (some node) (some type_supports) args w).1 →
        p.data.type_support_ = q.data.type_support_ ∧ p.data.type_support_ ≠ none) ∧
      (∀ h, obtain_typesupport type_supports = some h →
        _get_registered_type w node.id
          (_create_type_name h.data h.typesupport_identifier).1 = none →
        (∃ p, some p ∈ (create_publishers ext (some node) (some type_supports) args w).1) →
        (create_publishers ext (some node) (some type_supports) args w).2.constructions
          = w.constructions + 1) ∧
      (∀ h ts, obtain_typesupport type_supports = some h →
        _get_registered_type w node.id
          (_create_type_name h.data h.typesupport_identifier).1 = some ts →
        (create_publishers ext (some node) (some type_supports) args w).2 = w)) := by
  refine ⟨?_, ?_, ?_⟩
  · intro w members id ts h
    exact get_or_create_found node.id members id w ts h
  · intro w members id h
    cases hb : buildable members id with
    | true =>
      have hreg := get_or_create_registers node.id members id w
      rw [get_or_create_built node.id members id w h hb] at hreg ⊢
      refine ⟨by simp, ?_⟩
      intro ts hts
      simp only [Option.some.injEq] at hts
      subst hts
      exact ⟨rfl, hreg _ rfl, constructions_append_built w _ _ _ _ _ _⟩
    | false =>
      rw [get_or_create_unbuilt node.id members id w h hb]
      exact ⟨by simp, fun ts hts => by simp at hts⟩
  · intro args w
    cases hob : obtain_typesupport type_supports with
    | none =>
      obtain ⟨h1, h2⟩ := create_publishers_unobtained ext node type_supports hob args w
      refine ⟨by rw [h2]; omega, ?_, ?_, ?_⟩
      · intro p q hp _
        have := h1 _ hp
        simp at this
      · intro h hh
        simp at hh
      · intro h ts hh
        simp at hh
    | some h =>
      cases hreg : _get_registered_type w node.id
          (_create_type_name h.data h.typesupport_identifier).1 with
      | some ts =>
        obtain ⟨h1, h2⟩ := create_publishers_registered ext node type_supports h ts hob args w hreg
        refine ⟨by rw [h1]; omega, ?_, ?_, ?_⟩
        · intro p q hp hq
          rw [h2 p hp, h2 q hq]
          exact ⟨rfl, by simp⟩
        · intro h' hh hn
          simp only [Option.some.injEq] at hh
          subst hh
          rw [hreg] at hn
          simp at hn
        · intro h' ts' _ _
          exact h1
      | none =>
        rcases create_publishers_unregistered ext node type_supports h hob args w hreg with
          ⟨h1, h2⟩ | ⟨ts, h1, h2⟩
        · refine ⟨by rw [h2]; omega, ?_, ?_, ?_⟩
          · intro p q hp _
            have := h1 _ hp
            simp at this
          · intro h' _ _ hex
            obtain ⟨p, hp⟩ := hex
            have := h1 _ hp
            simp at this
          · intro h' ts' hh hn
            simp only [Option.some.injEq] at hh
            subst hh
            rw [hreg] at hn
            simp at hn
        · refine ⟨by rw [h2], ?_, ?_, ?_⟩
          · intro p q hp hq
            rw [h1 p hp, h1 q hq]
            exact ⟨rfl, by simp⟩
          · intro h' _ _ _
            exact h2
          · intro h' ts' hh hn
            simp only [Option.some.injEq] at hh
            subst hh
            rw [hreg] at hn
            simp at hn

theorem get_or_create_idempotent_per_node_witness :
    (create_publishers exampleExternals (some exampleNode) (some exampleTypeSupports_c)
      [(some "/chatter", some ⟨10, false⟩, some ⟨0⟩), (some "/echo", some ⟨5, false⟩, some ⟨0⟩)]
      emptyWorld).2.constructions = emptyWorld.constructions + 1 :=
  ((get_or_create_idempotent_per_node exampleExternals exampleNode exampleTypeSupports_c).2.2
    [(some "/chatter", some ⟨10, false⟩, some ⟨0⟩), (some "/echo", some ⟨5, false⟩, some ⟨0⟩)]
    emptyWorld).2.2.1 ⟨"rosidl_typesupport_introspection_c", some ⟨"", "Foo"⟩⟩ (by decide)
    (by decide)
    ⟨⟨"rosidl_typesupport_introspection_c", "/echo",
      ⟨1, "rosidl_typesupport_introspection_c", some ⟨"", "Foo"⟩, 0,
        some ⟨0, "dps_::Foo_", "rosidl_typesupport_introspection_c"⟩⟩, ⟨0⟩⟩, by decide⟩

/-- C6, as stated, fails: for an ordinary request (introspection-C members of
`Foo`, nothing registered), when `_create_message_type_support` returns null
the get-or-create step still invokes `_register_type`, with the null handle;
the step calls it with whatever the helper returned, before `type_support_` is
looked at.  The same happens in `rmw_create_publisher` for a handle whose
members handle is null, for which the modelled helper builds nothing. -/
theorem register_type_invoked_with_null :
    get_or_create_type_support_with create_returns_null 0 (some ⟨"", "Foo"⟩)
      "rosidl_typesupport_introspection_c" emptyWorld =
    (none, ⟨[], 0, [.register_type 0 none "rosidl_typesupport_introspection_c"]⟩) ∧
    rmw_create_publisher exampleExternals (some exampleNode)
      (some exampleTypeSupports_null_data) (some "/chatter") (some ⟨10, false⟩) (some ⟨0⟩)
      emptyWorld =
    (none, ⟨[], 0, [.create_message_type_support "rosidl_typesupport_introspection_c" none,
      .register_type 0 none "rosidl_typesupport_introspection_c"]⟩) := by
  decide

theorem create_none_iff_unbuildable (members : Option MessageMembers) (id : String)
    (w : World) :
    (_create_message_type_support members id w).1 = none ↔ buildable members id = false := by
  unfold _create_message_type_support buildable
  cases hb : ((using_introspection_c_typesupport id || using_introspection_cpp_typesupport id)
      && members.isSome) with
  | true => simp
  | false => simp

/-- C6, amended: a type support that failed to build is never put into the
registry and never handed to a publisher.  Whatever `_create_message_type_support`
does, when it returns null for an unregistered type name the get-or-create
step yields null and `_register_type` enters nothing; and `rmw_create_publisher`
then leaves the node's registry unchanged and returns `nullptr`.  (The step
with the helper as a parameter is the step of `rmw_create_publisher`.) -/
theorem failed_type_support_not_registered :
    (∀ node members id w,
      get_or_create_type_support node members id w =
        get_or_create_type_support_with _create_message_type_support node members id w) ∧
    (∀ (create : Option MessageMembers → String → World → Option TypeSupportObject × World)
        (node : Nat) (members : Option MessageMembers) (id : String) (w : World),
      _get_registered_type w node (_create_type_name members id).1 = none →
      (create members id w).1 = none →
      (get_or_create_type_support_with create node members id w).1 = none ∧
      (get_or_create_type_support_with create node members id w).2.registry =
        (create members id w).2.registry) ∧
    (∀ (ext : Externals) (n : rmw_node_t) (tss : TypeSupports)
        (h : rosidl_message_type_support_t) (topic_name : Option String)
        (qos_profile : Option rmw_qos_profile_t)
        (publisher_options : Option rmw_publisher_options_t) (w : World),
      obtain_typesupport tss = some h →
      _get_registered_type w n.id (_create_type_name h.data h.typesupport_identifier).1
        = none →
      (_create_message_type_support h.data h.typesupport_identifier w).1 = none →
      (rmw_create_publisher ext (some n) (some tss) topic_name qos_profile
        publisher_options w).1 = none ∧
      (rmw_create_publisher ext (some n) (some tss) topic_name qos_profile
        publisher_options w).2.registry = w.registry) := by
  refine ⟨fun _ _ _ _ => rfl, ?_, ?_⟩
  · intro create node members id w hreg hnull
    unfold get_or_create_type_support_with
    simp only [hreg, hnull, _register_type]
    exact ⟨trivial, trivial⟩
  · intro ext n tss h topic_name qos_profile publisher_options w hob hreg hnull
    have hb := (create_none_iff_unbuildable _ _ _).mp hnull
    have hgoc := get_or_create_unbuilt n.id h.data h.typesupport_identifier w hreg hb
    rcases rmw_create_publisher_cases ext (some n) (some tss) topic_name qos_profile
      publisher_options w with hc | ⟨n', tss', h', hn, ht, hob', hw, hr⟩
    · rw [hc]
      exact ⟨rfl, rfl⟩
    · simp only [Option.some.injEq] at hn ht
      subst hn ht
      rw [hob] at hob'
      simp only [Option.some.injEq] at hob'
      subst hob'
      rw [hgoc] at hw hr
      refine ⟨?_, by rw [hw]⟩
      rcases hr with ⟨hnone, _⟩ | ⟨p, _, hts, hne⟩
      · exact hnone
      · exact absurd hts hne

theorem failed_type_support_not_registered_witness :
    ((get_or_create_type_support_with create_returns_null 0 (some ⟨"", "Foo"⟩)
        "rosidl_typesupport_introspection_c" emptyWorld).1 = none ∧
      (get_or_create_type_support_with create_returns_null 0 (some ⟨"", "Foo"⟩)
        "rosidl_typesupport_introspection_c" emptyWorld).2.registry =
        (create_returns_null (some ⟨"", "Foo"⟩) "rosidl_typesupport_introspection_c"
          emptyWorld).2.registry) ∧
    ((rmw_create_publisher exampleExternals (some exampleNode)
        (some exampleTypeSupports_null_data) (some "/chatter") (some ⟨10, false⟩) (some ⟨0⟩)
        emptyWorld).1 = none ∧
      (rmw_create_publisher exampleExternals (some exampleNode)
        (some exampleTypeSupports_null_data) (some "/chatter") (some ⟨10, false⟩) (some ⟨0⟩)
        emptyWorld).2.registry = emptyWorld.registry) :=
  ⟨failed_type_support_not_registered.2.1 create_returns_null 0 (some ⟨"", "Foo"⟩)
      "rosidl_typesupport_introspection_c" emptyWorld (by decide) rfl,
   failed_type_support_not_registered.2.2 exampleExternals exampleNode
      exampleTypeSupports_null_data ⟨"rosidl_typesupport_introspection_c", none⟩
      (some "/chatter") (some ⟨10, false⟩) (some ⟨0⟩) emptyWorld rfl (by decide) (by decide)⟩

/-- C7: `rmw_create_publisher` returns `nullptr` whenever the type supports hold
neither the introspection-C nor the introspection-C++ handle, and whenever the
get-or-create step leaves `type_support_` null; a returned publisher always
holds a type support obtained for one of the two flavors. -/
theorem create_publisher_fails_without_type_support (ext : Externals)
    (node : Option rmw_node_t) (type_supports : Option TypeSupports)
    (topic_name : Option String) (qos_profile : Option rmw_qos_profile_t)
    (publisher_options : Option rmw_publisher_options_t) (w : World) :
    (∀ tss, type_supports = some tss →
      tss.get_message_typesupport_handle rosidl_typesupport_introspection_c__identifier
        = none →
      tss.get_message_typesupport_handle
        rosidl_typesupport_introspection_cpp_typesupport_identifier = none →
      (rmw_create_publisher ext node type_supports topic_name qos_profile
        publisher_options w).1 = none) ∧
    (∀ n tss h, node = some n → type_supports = some tss →
      obtain_typesupport tss = some h →
      (get_or_create_type_support n.id h.data h.typesupport_identifier w).1 = none →
      (rmw_create_publisher ext node type_supports topic_name qos_profile
        publisher_options w).1 = none) ∧
    (∀ p, (rmw_create_publisher ext node type_supports topic_name qos_profile
        publisher_options w).1 = some p →
      p.data.type_support_ ≠ none ∧
      ∃ tss h, type_supports = some tss ∧ obtain_typesupport tss = some h) := by
  have hc := rmw_create_publisher_cases ext node type_supports topic_name qos_profile
    publisher_options w
  refine ⟨?_, ?_, ?_⟩
  · intro tss ht h1 h2
    have hob : obtain_typesupport tss = none := by
      unfold obtain_typesupport
      rw [h1]
      exact h2
    rcases hc with hc | ⟨n', tss', h', _, ht', hob', _, _⟩
    · rw [hc]
    · rw [ht] at ht'
      simp only [Option.some.injEq] at ht'
      subst ht'
      rw [hob] at hob'
      simp at hob'
  · intro n tss h hn ht hob hnone
    rcases hc with hc | ⟨n', tss', h', hn', ht', hob', _, hr⟩
    · rw [hc]
    · rw [hn] at hn'
      rw [ht] at ht'
      simp only [Option.some.injEq] at hn' ht'
      subst hn' ht'
      rw [hob] at hob'
      simp only [Option.some.injEq] at hob'
      subst hob'
      rcases hr with ⟨hr, _⟩ | ⟨p, _, hts, hne⟩
      · exact hr
      · rw [hnone] at hts
        exact absurd hts hne
  · intro p hp
    rcases hc with hc | ⟨n', tss', h', _, ht', hob', _, hr⟩
    · rw [hc] at hp
      simp at hp
    · rcases hr with ⟨hr, _⟩ | ⟨q, hq, _, hne⟩
      · rw [hr] at hp
        simp at hp
      · rw [hp] at hq
        simp only [Option.some.injEq] at hq
        subst hq
        exact ⟨hne, tss', h', ht', hob'⟩

theorem create_publisher_fails_without_type_support_witness :
    (rmw_create_publisher exampleExternals (some exampleNode) (some exampleTypeSupports_none)
      (some "/chatter") (some ⟨10, false⟩) (some ⟨0⟩) emptyWorld).1 = none ∧
    (rmw_create_publisher exampleExternals (some exampleNode) (some exampleTypeSupports_unknown)
      (some "/chatter") (some ⟨10, false⟩) (some ⟨0⟩) emptyWorld).1 = none :=
  ⟨(create_publisher_fails_without_type_support exampleExternals (some exampleNode)
      (some exampleTypeSupports_none) (some "/chatter") (some ⟨10, false⟩) (some ⟨0⟩)
      emptyWorld).1 exampleTypeSupports_none rfl rfl rfl,
   (create_publisher_fails_without_type_support exampleExternals (some exampleNode)
      (some exampleTypeSupports_unknown) (some "/chatter") (some ⟨10, false⟩) (some ⟨0⟩)
      emptyWorld).2.1 exampleNode exampleTypeSupports_unknown
      ⟨"rosidl_typesupport_other", some ⟨"", "Foo"⟩⟩ rfl rfl rfl (by decide)⟩

/-- C8, as stated, fails: after a publisher of the introspection-C flavor has
had the type support of `dps_::Foo_` constructed, a publisher of the
introspection-C++ flavor whose type name is the same receives that very type
support, built for the C identifier, and nothing is constructed for the pair
of this name and the C++ identifier. -/
theorem registry_ignores_identifier :
    (rmw_create_publisher exampleExternals (some exampleNode) (some exampleTypeSupports_c)
      (some "/chatter") (some ⟨10, false⟩) (some ⟨0⟩) emptyWorld).1.map
        (fun p => (p.data.typesupport_identifier_, p.data.type_support_)) =
      some ("rosidl_typesupport_introspection_c",
        some ⟨0, "dps_::Foo_", "rosidl_typesupport_introspection_c"⟩) ∧
    (rmw_create_publisher exampleExternals (some exampleNode) (some exampleTypeSupports_cpp)
      (some "/chatter") (some ⟨10, false⟩) (some ⟨0⟩)
      (rmw_create_publisher exampleExternals (some exampleNode) (some exampleTypeSupports_c)
        (some "/chatter") (some ⟨10, false⟩) (some ⟨0⟩) emptyWorld).2).1.map
        (fun p => (p.data.typesupport_identifier_, p.data.type_support_)) =
      some ("rosidl_typesupport_introspection_cpp",
        some ⟨0, "dps_::Foo_", "rosidl_typesupport_introspection_c"⟩) ∧
    (rmw_create_publisher exampleExternals (some exampleNode) (some exampleTypeSupports_cpp)
      (some "/chatter") (some ⟨10, false⟩) (some ⟨0⟩)
      (rmw_create_publisher exampleExternals (some exampleNode) (some exampleTypeSupports_c)
        (some "/chatter") (some ⟨10, false⟩) (some ⟨0⟩) emptyWorld).2).2.constructions = 1 := by
  decide

/-- C8, amended: registry entries are distinguished by the computed type name
alone.  Once a get-or-create step has yielded a type support for one request,
a later request on the same node with the same computed type name receives
that type support whatever its identifier and constructs nothing; a request
with a different, unregistered computed type name that can be built gets a
construction of its own, for its own identifier. -/
theorem registry_keyed_by_type_name (node : Nat) (m1 m2 : Option MessageMembers)
    (id1 id2 : String) (w : World) (ts1 : TypeSupportObject)
    (h1 : (get_or_create_type_support node m1 id1 w).1 = some ts1) :
    ((_create_type_name m2 id2).1 = (_create_type_name m1 id1).1 →
      get_or_create_type_support node m2 id2 (get_or_create_type_support node m1 id1 w).2 =
        (some ts1, (get_or_create_type_support node m1 id1 w).2)) ∧
    (_get_registered_type (get_or_create_type_support node m1 id1 w).2 node
        (_create_type_name m2 id2).1 = none →
      buildable m2 id2 = true →
      ∃ ts2, (get_or_create_type_support node m2 id2
          (get_or_create_type_support node m1 id1 w).2).1 = some ts2 ∧
        ts2.address = (get_or_create_type_support node m1 id1 w).2.next_address ∧
        ts2.identifier = id2 ∧ ts2.name = (_create_type_name m2 id2).1 ∧
        (get_or_create_type_support node m2 id2
          (get_or_create_type_support node m1 id1 w).2).2.constructions =
          (get_or_create_type_support node m1 id1 w).2.constructions + 1) := by
  have hreg := get_or_create_registers node m1 id1 w ts1 h1
  refine ⟨?_, ?_⟩
  · intro hname
    rw [← hname] at hreg
    exact get_or_create_found node m2 id2 _ ts1 hreg
  · intro hnone hb
    rw [get_or_create_built node m2 id2 _ hnone hb]
    exact ⟨_, rfl, rfl, rfl, rfl, constructions_append_built _ _ _ _ _ _ _⟩

theorem registry_keyed_by_type_name_witness :
    get_or_create_type_support 0 (some ⟨"", "Foo"⟩) "rosidl_typesupport_introspection_cpp"
      (get_or_create_type_support 0 (some ⟨"", "Foo"⟩) "rosidl_typesupport_introspection_c"
        emptyWorld).2 =
    (some ⟨0, "dps_::Foo_", "rosidl_typesupport_introspection_c"⟩,
      (get_or_create_type_support 0 (some ⟨"", "Foo"⟩) "rosidl_typesupport_introspection_c"
        emptyWorld).2) :=
  (registry_keyed_by_type_name 0 (some ⟨"", "Foo"⟩) (some ⟨"", "Foo"⟩)
    "rosidl_typesupport_introspection_c" "rosidl_typesupport_introspection_cpp" emptyWorld
    ⟨0, "dps_::Foo_", "rosidl_typesupport_introspection_c"⟩ (by decide)).1 (by decide)

/-! ## Part 10. The latest-message cache -/

theorem find_assign_same (m : MessageMap) (key value : List Nat) :
    MessageMap.find (MessageMap.assign m key value) key = some value := by
  induction m with
  | nil => simp [MessageMap.assign, MessageMap.find]
  | cons e rest ih =>
    obtain ⟨k, v⟩ := e
    by_cases h : k = key
    · simp [MessageMap.assign, MessageMap.find, h]
    · simp [MessageMap.assign, MessageMap.find, h, ih]

theorem find_assign_other (m : MessageMap) (key key' value : List Nat) (h : key' ≠ key) :
    MessageMap.find (MessageMap.assign m key value) key' = MessageMap.find m key' := by
  induction m with
  | nil =>
    simp only [MessageMap.assign, MessageMap.find]
    rw [if_neg (fun h' => h h'.symm)]
  | cons e rest ih =>
    obtain ⟨k, v⟩ := e
    by_cases hk : k = key
    · subst hk
      simp only [MessageMap.assign, if_true, MessageMap.find]
      rw [if_neg (fun h' => h h'.symm), if_neg (fun h' => h h'.symm)]
    · simp only [MessageMap.assign, if_neg hk, MessageMap.find]
      by_cases hk' : k = key'
      · rw [if_pos hk', if_pos hk']
      · rw [if_neg hk', if_neg hk', ih]

theorem keys_assign (m : MessageMap) (key value : List Nat) :
    (MessageMap.assign m key value).map Prod.fst =
      if key ∈ m.map Prod.fst then m.map Prod.fst else m.map Prod.fst ++ [key] := by
  induction m with
  | nil => simp [MessageMap.assign]
  | cons e rest ih =>
    obtain ⟨k, v⟩ := e
    by_cases hk : k = key
    · subst hk
      simp [MessageMap.assign]
    · have hk' : ¬ key = k := fun h' => hk h'.symm
      simp only [MessageMap.assign, if_neg hk, List.map_cons, ih, List.mem_cons, hk', false_or]
      split <;> simp

theorem find_foldl_not_in (samples : List zn_sample) (key : List Nat)
    (h : ∀ t ∈ samples, t.key.bytes ≠ key) : ∀ m : MessageMap,
    MessageMap.find (samples.foldl zn_sub_callback m) key = MessageMap.find m key := by
  induction samples with
  | nil => intro m; rfl
  | cons t rest ih =>
    intro m
    simp only [List.foldl_cons]
    rw [ih (fun u hu => h u (List.mem_cons_of_mem _ hu))]
    exact find_assign_other m _ _ _ (fun h' => h t (List.mem_cons_self _ _) h'.symm)

/-- C10: the cache holds one slot per key with the latest message.  After
`zn_sub_callback(sample)` the entry of the sample's key is exactly the sample's
value bytes, whatever was stored before; these are `value.len` bytes, the first
`value.len` at `value.val` in order, when the memory there is that long; the
map keeps a single entry per key; and after any sequence of samples the entry
of a key is the payload of the last sample that carried that key. -/
theorem zn_sub_callback_keeps_latest :
    (∀ (zn_messages_ : MessageMap) (sample : zn_sample),
      MessageMap.find (zn_sub_callback zn_messages_ sample) sample.key.bytes
        = some sample.value.bytes) ∧
    (∀ z : z_bytes_t, z.len ≤ z.val.length →
      z.bytes.length = z.len ∧ ∀ i, i < z.len → z.bytes[i]? = z.val[i]?) ∧
    (∀ (zn_messages_ : MessageMap) (sample : zn_sample),
      (zn_messages_.map Prod.fst).Nodup →
      ((zn_sub_callback zn_messages_ sample).map Prod.fst).Nodup) ∧
    (∀ (zn_messages_ : MessageMap) (earlier later : List zn_sample) (sample : zn_sample),
      (∀ t ∈ later, t.key.bytes ≠ sample.key.bytes) →
      MessageMap.find ((earlier ++ sample :: later).foldl zn_sub_callback zn_messages_)
        sample.key.bytes = some sample.value.bytes) := by
  refine ⟨?_, ?_, ?_, ?_⟩
  · intro m sample
    exact find_assign_same m _ _
  · intro z hz
    unfold z_bytes_t.bytes
    refine ⟨by simp [hz], ?_⟩
    intro i hi
    simp [List.getElem?_take, hi]
  · intro m sample hnd
    unfold zn_sub_callback
    simp only
    rw [keys_assign]
    split
    · exact hnd
    · rename_i hnot
      rw [List.nodup_append]
      refine ⟨hnd, by simp, ?_⟩
      intro a ha hb
      simp only [List.mem_singleton] at hb
      subst hb
      exact hnot ha
  · intro m earlier later sample hlater
    rw [List.foldl_append, List.foldl_cons, find_foldl_not_in later _ hlater]
    exact find_assign_same _ _ _

theorem zn_sub_callback_keeps_latest_witness :
    MessageMap.find
      ((([⟨⟨[47, 97], 2⟩, ⟨[1, 2, 3], 3⟩⟩] : List zn_sample) ++
          (⟨⟨[47, 97, 0], 2⟩, ⟨[9, 8, 7], 2⟩⟩ : zn_sample) ::
          [⟨⟨[47, 98], 2⟩, ⟨[5], 1⟩⟩]).foldl zn_sub_callback [])
      [47, 97] = some [9, 8] :=
  zn_sub_callback_keeps_latest.2.2.2 []
    [⟨⟨[47, 97], 2⟩, ⟨[1, 2, 3], 3⟩⟩] [⟨⟨[47, 98], 2⟩, ⟨[5], 1⟩⟩]
    ⟨⟨[47, 97, 0], 2⟩, ⟨[9, 8, 7], 2⟩⟩ (by decide)

/-! ## Part 11. The frame of the latest-message cache -/

/-- C11: the cache is per topic.  `zn_sub_callback` for a sample with key `k`
leaves the entry of every other key `k'` as it was: `zn_messages_` has an entry
for `k'` after the call exactly when it had one before, with the same bytes. -/
theorem zn_sub_callback_changes_only_its_key (zn_messages_ : MessageMap) (sample : zn_sample)
    (key' : List Nat) (h : key' ≠ sample.key.bytes) :
    MessageMap.find (zn_sub_callback zn_messages_ sample) key' =
      MessageMap.find zn_messages_ key' := by
  unfold zn_sub_callback
  exact find_assign_other zn_messages_ _ _ _ h

theorem zn_sub_callback_changes_only_its_key_witness :
    MessageMap.find (zn_sub_callback [([47, 98], [5]), ([47, 97], [1, 2, 3])]
        ⟨⟨[47, 97, 0], 2⟩, ⟨[9, 8, 7], 2⟩⟩) [47, 98] =
      MessageMap.find [([47, 98], [5]), ([47, 97], [1, 2, 3])] [47, 98] :=
  zn_sub_callback_changes_only_its_key [([47, 98], [5]), ([47, 97], [1, 2, 3])]
    ⟨⟨[47, 97, 0], 2⟩, ⟨[9, 8, 7], 2⟩⟩ [47, 98] (by decide)

/-! ## Part 12. `rmw_init` -/

/-- C12, as stated, fails: with mode PEER or ROUTER `configure_connection_mode`
returns null and sets "zenoh-pico can only work in client mode", and `rmw_init`
returns `RMW_RET_ERROR` although every other step would succeed. -/
theorem init_rejects_peer_and_router :
    configure_connection_mode exampleInitExternals (exampleContext "PEER") =
      (none, some "zenoh-pico can only work in client mode") ∧
    (rmw_init exampleInitExternals none (exampleContext "PEER")).1 = RMW_RET_ERROR ∧
    configure_connection_mode exampleInitExternals (exampleContext "ROUTER") =
      (none, some "zenoh-pico can only work in client mode") ∧
    (rmw_init exampleInitExternals none (exampleContext "ROUTER")).1 = RMW_RET_ERROR := by
  decide

/-- C12, amended: the session can be configured in CLIENT mode only.  For mode
CLIENT `configure_connection_mode` returns what `zn_config_client` returns for
the session locator and sets no error, and `rmw_init` succeeds when that
configuration is non-null and the other steps succeed; for every other mode it
returns null, sets "zenoh-pico can only work in client mode", and `rmw_init`
returns `RMW_RET_ERROR` once it gets to the mode. -/
theorem init_accepts_client_mode_only (ext : InitExternals)
    (options : Option rmw_init_options_t) (context : rmw_context_t)
    (impl : rmw_init_options_impl_t)
    (hpre : (ext.rmw_zenoh_common_init_pre options context).1 = RMW_RET_OK)
    (himpl : (ext.rmw_zenoh_common_init_pre options context).2.options.impl = some impl)
    (halloc : ext.allocate_context_impl = true) :
    (impl.mode = "CLIENT" →
      configure_connection_mode ext (ext.rmw_zenoh_common_init_pre options context).2 =
        (ext.zn_config_client impl.session_locator, none) ∧
      ∀ config session, ext.zn_config_client impl.session_locator = some config →
        ext.zn_open config = some session →
        (rmw_init ext options context).1 = RMW_RET_OK) ∧
    (impl.mode ≠ "CLIENT" →
      configure_connection_mode ext (ext.rmw_zenoh_common_init_pre options context).2 =
        (none, some "zenoh-pico can only work in client mode") ∧
      rmw_init ext options context =
        (RMW_RET_ERROR, rmw_get_zero_initialized_context, [])) := by
  refine ⟨?_, ?_⟩
  · intro hmode
    have hc : configure_connection_mode ext (ext.rmw_zenoh_common_init_pre options context).2 =
        (ext.zn_config_client impl.session_locator, none) := by
      unfold configure_connection_mode
      rw [himpl]
      simp only
      rw [if_pos hmode]
    refine ⟨hc, ?_⟩
    intro config session hcfg hopen
    unfold rmw_init
    simp only
    rw [if_pos hpre, if_neg (by simp [halloc]), hc, hcfg]
    simp only
    rw [hopen]
    exact hpre
  · intro hmode
    have hc : configure_connection_mode ext (ext.rmw_zenoh_common_init_pre options context).2 =
        (none, some "zenoh-pico can only work in client mode") := by
      unfold configure_connection_mode
      rw [himpl]
      simp only
      rw [if_neg hmode]
    refine ⟨hc, ?_⟩
    unfold rmw_init
    simp only
    rw [if_pos hpre, if_neg (by simp [halloc]), hc]

theorem init_accepts_client_mode_only_witness :
    (rmw_init exampleInitExternals none (exampleContext "CLIENT")).1 = RMW_RET_OK ∧
    rmw_init exampleInitExternals none (exampleContext "PEER") =
      (RMW_RET_ERROR, rmw_get_zero_initialized_context, []) :=
  ⟨((init_accepts_client_mode_only exampleInitExternals none (exampleContext "CLIENT")
      ⟨"CLIENT", "tcp/127.0.0.1:7447"⟩ rfl rfl rfl).1 rfl).2 7 3 rfl rfl,
   ((init_accepts_client_mode_only exampleInitExternals none (exampleContext "PEER")
      ⟨"PEER", "tcp/127.0.0.1:7447"⟩ rfl rfl rfl).2 (by decide)).2⟩

/-- C13: `rmw_init` is all-or-nothing on the context.  Whenever it returns a
value other than `RMW_RET_OK`, `*context` is the zero-initialized context on
return; this is what happens when `rmw_zenoh_common_init_pre` fails (its code is
returned), when the context impl cannot be allocated (`RMW_RET_BAD_ALLOC`), when
no configuration is obtained or `zn_open` returns null (`RMW_RET_ERROR`).  When
it returns `RMW_RET_OK`, `context->impl` holds the session `zn_open` returned
for the configuration, with `is_shutdown == false`, and the rest of the context
is as `rmw_zenoh_common_init_pre` left it. -/
theorem init_all_or_nothing (ext : InitExternals) (options : Option rmw_init_options_t)
    (context : rmw_context_t) :
    ((rmw_init ext options context).1 ≠ RMW_RET_OK →
      (rmw_init ext options context).2.1 = rmw_get_zero_initialized_context) ∧
    ((ext.rmw_zenoh_common_init_pre options context).1 ≠ RMW_RET_OK →
      (rmw_init ext options context).1 = (ext.rmw_zenoh_common_init_pre options context).1 ∧
      (rmw_init ext options context).1 ≠ RMW_RET_OK) ∧
    ((ext.rmw_zenoh_common_init_pre options context).1 = RMW_RET_OK →
      ext.allocate_context_impl = false →
      (rmw_init ext options context).1 = RMW_RET_BAD_ALLOC) ∧
    ((ext.rmw_zenoh_common_init_pre options context).1 = RMW_RET_OK →
      ext.allocate_context_impl = true →
      (configure_connection_mode ext (ext.rmw_zenoh_common_init_pre options context).2).1
        = none →
      (rmw_init ext options context).1 = RMW_RET_ERROR) ∧
    ((ext.rmw_zenoh_common_init_pre options context).1 = RMW_RET_OK →
      ext.allocate_context_impl = true →
      ∀ config,
      (configure_connection_mode ext (ext.rmw_zenoh_common_init_pre options context).2).1
        = some config →
      ext.zn_open config = none →
      (rmw_init ext options context).1 = RMW_RET_ERROR) ∧
    ((rmw_init ext options context).1 = RMW_RET_OK →
      ∃ config session,
        (configure_connection_mode ext (ext.rmw_zenoh_common_init_pre options context).2).1
          = some config ∧
        ext.zn_open config = some session ∧
        (rmw_init ext options context).2.1 =
          { (ext.rmw_zenoh_common_init_pre options context).2 with
            impl := some ⟨session, false⟩ }) := by
  unfold rmw_init
  simp only
  by_cases hpre : (ext.rmw_zenoh_common_init_pre options context).1 = RMW_RET_OK
  · rw [if_pos hpre]
    by_cases halloc : ext.allocate_context_impl = false
    · rw [if_pos halloc]
      simp [halloc, hpre, RMW_RET_BAD_ALLOC, RMW_RET_OK]
    · rw [if_neg halloc]
      cases hcfg : (configure_connection_mode ext
          (ext.rmw_zenoh_common_init_pre options context).2).1 with
      | none => simp [halloc, hpre, RMW_RET_ERROR, RMW_RET_OK]
      | some config =>
        cases hopen : ext.zn_open config with
        | none =>
          simp only [hopen]
          simp [halloc, hpre, hopen, RMW_RET_ERROR, RMW_RET_OK]
        | some session =>
          simp only [hopen]
          simp [halloc, hpre, hopen]
  · rw [if_neg hpre]
    simp [hpre]

theorem init_all_or_nothing_witness :
    (rmw_init exampleInitExternals none (exampleContext "PEER")).2.1 =
      rmw_get_zero_initialized_context ∧
    ∃ config session,
      (configure_connection_mode exampleInitExternals
        (exampleInitExternals.rmw_zenoh_common_init_pre none (exampleContext "CLIENT")).2).1
        = some config ∧
      exampleInitExternals.zn_open config = some session ∧
      (rmw_init exampleInitExternals none (exampleContext "CLIENT")).2.1 =
        { (exampleInitExternals.rmw_zenoh_common_init_pre none (exampleContext "CLIENT")).2 with
          impl := some ⟨session, false⟩ } :=
  ⟨(init_all_or_nothing exampleInitExternals none (exampleContext "PEER")).1 (by decide),
   (init_all_or_nothing exampleInitExternals none (exampleContext "CLIENT")).2.2.2.2.2 rfl⟩

/-- C14 fails on the code: with both `znp_start_read_task` and
`znp_start_lease_task` returning -1, `rmw_init` still returns `RMW_RET_OK` and
leaves the context initialized with the session; `configure_session` drops the
two return codes and runs after `clean_when_fail.release()`. -/
theorem init_ignores_task_start_failure :
    rmw_init exampleInitExternals_tasks_fail none (exampleContext "CLIENT") =
      (RMW_RET_OK,
       ⟨1, some "rmw_zenoh_pico_dynamic_cpp", ⟨1, some ⟨"CLIENT", "tcp/127.0.0.1:7447"⟩⟩,
         some ⟨3, false⟩⟩,
       [-1, -1]) := by
  decide

/-! ## Part 13. Publisher and subscription creation -/

/-- A publisher is returned only when every check passed: the topic name is
accepted, a type support of one of the two flavors was obtained, and the
publisher carries that type support's identifier. -/
theorem rmw_create_publisher_success (ext : Externals) (node : Option rmw_node_t)
    (type_supports : Option TypeSupports) (topic_name : Option String)
    (qos_profile : Option rmw_qos_profile_t)
    (publisher_options : Option rmw_publisher_options_t) (w : World) (p : rmw_publisher_t)
    (hp : (rmw_create_publisher ext node type_supports topic_name qos_profile
      publisher_options w).1 = some p) :
    ∃ topic qos tss h, topic_name = some topic ∧ qos_profile = some qos ∧
      type_supports = some tss ∧ obtain_typesupport tss = some h ∧
      topic_name_accepted ext topic qos ∧
      p.topic_name = topic ∧ p.implementation_identifier = h.typesupport_identifier := by
  cases node with
  | none => simp [rmw_create_publisher] at hp
  | some n =>
  by_cases h1 : n.implementation_identifier ≠ eclipse_zenoh_identifier
  · unfold rmw_create_publisher at hp; simp only at hp; rw [if_pos h1] at hp; simp at hp
  cases topic_name with
  | none => unfold rmw_create_publisher at hp; simp only at hp; rw [if_neg h1] at hp; simp at hp
  | some topic =>
  by_cases h2 : topic.length = 0
  · unfold rmw_create_publisher at hp; simp only at hp
    rw [if_neg h1, if_pos h2] at hp; simp at hp
  cases qos_profile with
  | none =>
    unfold rmw_create_publisher at hp; simp only at hp
    rw [if_neg h1, if_neg h2] at hp; simp at hp
  | some qos =>
  cases publisher_options with
  | none =>
    unfold rmw_create_publisher at hp; simp only at hp
    rw [if_neg h1, if_neg h2] at hp; simp at hp
  | some opts =>
  cases type_supports with
  | none =>
    unfold rmw_create_publisher at hp; simp only at hp
    rw [if_neg h1, if_neg h2] at hp; simp at hp
  | some tss =>
  by_cases h3 : ext.is_valid_qos qos = false
  · unfold rmw_create_publisher at hp; simp only at hp
    rw [if_neg h1, if_neg h2, if_pos h3] at hp; simp at hp
  by_cases h4 : (ext.rmw_validate_full_topic_name topic).1 ≠ RMW_RET_OK
  · unfold rmw_create_publisher at hp; simp only at hp
    rw [if_neg h1, if_neg h2, if_neg h3, if_pos h4] at hp; simp at hp
  by_cases h5 : (ext.rmw_validate_full_topic_name topic).2 ≠ RMW_TOPIC_VALID
      ∧ qos.avoid_ros_namespace_conventions = false
  · unfold rmw_create_publisher at hp; simp only at hp
    rw [if_neg h1, if_neg h2, if_neg h3, if_neg h4, if_pos h5] at hp; simp at hp
  cases hob : obtain_typesupport tss with
  | none =>
    unfold rmw_create_publisher at hp; simp only at hp
    rw [if_neg h1, if_neg h2, if_neg h3, if_neg h4, if_neg h5, hob] at hp; simp at hp
  | some h =>
  have hacc : topic_name_accepted ext topic qos := by
    refine ⟨h2, not_not.mp h4, ?_⟩
    by_cases hv : (ext.rmw_validate_full_topic_name topic).2 = RMW_TOPIC_VALID
    · exact Or.inl hv
    · right
      cases ha : qos.avoid_ros_namespace_conventions with
      | true => rfl
      | false => exact absurd ⟨hv, ha⟩ h5
  refine ⟨topic, qos, tss, h, rfl, rfl, rfl, hob, hacc, ?_⟩
  unfold rmw_create_publisher at hp; simp only at hp
  rw [if_neg h1, if_neg h2, if_neg h3, if_neg h4, if_neg h5, hob] at hp
  simp only at hp
  by_cases h6 : ext.allocate 0 = false
  · rw [if_pos h6] at hp; simp at hp
  by_cases h7 : ext.allocate 1 = false
  · rw [if_neg h6, if_pos h7] at hp; simp at hp
  by_cases h8 : ext.allocate 2 = false
  · rw [if_neg h6, if_neg h7, if_pos h8] at hp; simp at hp
  rw [if_neg h6, if_neg h7, if_neg h8] at hp
  cases hg : (get_or_create_type_support n.id h.data h.typesupport_identifier w).1 with
  | none => rw [hg] at hp; simp at hp
  | some ts =>
    rw [hg] at hp
    simp only [Option.some.injEq] at hp
    subst hp
    exact ⟨rfl, rfl⟩

/-- When every other step succeeds, an accepted topic name yields a publisher. -/
theorem rmw_create_publisher_accepts (ext : Externals) (n : rmw_node_t) (tss : TypeSupports)
    (topic : String) (qos : rmw_qos_profile_t) (opts : rmw_publisher_options_t) (w : World)
    (h : rosidl_message_type_support_t) (ts : TypeSupportObject)
    (hn : n.implementation_identifier = eclipse_zenoh_identifier)
    (hq : ext.is_valid_qos qos = true) (hob : obtain_typesupport tss = some h)
    (h0 : ext.allocate 0 = true) (h1 : ext.allocate 1 = true) (h2 : ext.allocate 2 = true)
    (hg : (get_or_create_type_support n.id h.data h.typesupport_identifier w).1 = some ts)
    (hacc : topic_name_accepted ext topic qos) :
    (rmw_create_publisher ext (some n) (some tss) (some topic) (some qos) (some opts) w).1
      ≠ none := by
  obtain ⟨a1, a2, a3⟩ := hacc
  have h5 : ¬ ((ext.rmw_validate_full_topic_name topic).2 ≠ RMW_TOPIC_VALID
      ∧ qos.avoid_ros_namespace_conventions = false) := by
    rintro ⟨b1, b2⟩
    rcases a3 with a3 | a3
    · exact b1 a3
    · rw [a3] at b2; simp at b2
  unfold rmw_create_publisher
  simp only
  rw [if_neg (not_not.mpr hn), if_neg a1, if_neg (by simp [hq]), if_neg (not_not.mpr a2),
    if_neg h5, hob]
  simp only
  rw [if_neg (by simp [h0]), if_neg (by simp [h1]), if_neg (by simp [h2]), hg]
  simp

/-- Every call of `rmw_create_subscription` either returns `nullptr` and
leaves the statics alone, or returns a subscription for an accepted topic
name that took the current counter value as its id, advanced the counter, and
declared a Zenoh subscriber exactly when the topic was not yet in the map. -/
theorem rmw_create_subscription_cases (ext : SubscriptionExternals)
    (node : Option rmw_node_t) (type_supports : Option TypeSupports)
    (topic_name : Option String) (qos_profile : Option rmw_qos_profile_t)
    (subscription_options : Option rmw_subscription_options_t) (w : SubscriptionWorld) :
    rmw_create_subscription ext node type_supports topic_name qos_profile
        subscription_options w = (none, w) ∨
    ∃ topic qos s, topic_name = some topic ∧ qos_profile = some qos ∧
      topic_name_accepted ext.toExternals topic qos ∧
      (rmw_create_subscription ext node type_supports topic_name qos_profile
        subscription_options w).1 = some s ∧
      s.topic_name = topic ∧ s.implementation_identifier = eclipse_zenoh_identifier ∧
      s.data.subscription_id_ = w.subscription_id_counter ∧
      (rmw_create_subscription ext node type_supports topic_name qos_profile
        subscription_options w).2.subscription_id_counter =
        (w.subscription_id_counter + 1) % ext.counter_values ∧
      ((topic_find w.zn_topic_to_sub_data topic = none ∧
          s.data.zn_subscriber_ = some (ext.zn_declare_subscriber topic) ∧
          (rmw_create_subscription ext node type_supports topic_name qos_profile
            subscription_options w).2.declared = w.declared ++ [topic] ∧
          (rmw_create_subscription ext node type_supports topic_name qos_profile
            subscription_options w).2.zn_topic_to_sub_data =
            w.zn_topic_to_sub_data ++ [(topic, [w.subscription_id_counter])]) ∨
        (topic_find w.zn_topic_to_sub_data topic ≠ none ∧
          s.data.zn_subscriber_ = none ∧
          (rmw_create_subscription ext node type_supports topic_name qos_profile
            subscription_options w).2.declared = w.declared ∧
          (rmw_create_subscription ext node type_supports topic_name qos_profile
            subscription_options w).2.zn_topic_to_sub_data =
            topic_push_back w.zn_topic_to_sub_data topic w.subscription_id_counter)) := by
  cases node with
  | none => left; rfl
  | some n =>
  by_cases h1 : n.implementation_identifier ≠ eclipse_zenoh_identifier
  · left; unfold rmw_create_subscription; simp only; rw [if_pos h1]
  cases topic_name with
  | none => left; unfold rmw_create_subscription; simp only; rw [if_neg h1]
  | some topic =>
  by_cases h2 : topic.length = 0
  · left; unfold rmw_create_subscription; simp only; rw [if_neg h1, if_pos h2]
  cases qos_profile with
  | none => left; unfold rmw_create_subscription; simp only; rw [if_neg h1, if_neg h2]
  | some qos =>
  cases subscription_options with
  | none => left; unfold rmw_create_subscription; simp only; rw [if_neg h1, if_neg h2]
  | some opts =>
  cases type_supports with
  | none => left; unfold rmw_create_subscription; simp only; rw [if_neg h1, if_neg h2]
  | some tss =>
  by_cases h3 : ext.is_valid_qos qos = false
  · left; unfold rmw_create_subscription; simp only; rw [if_neg h1, if_neg h2, if_pos h3]
  by_cases h4 : (ext.rmw_validate_full_topic_name topic).1 ≠ RMW_RET_OK
  · left; unfold rmw_create_subscription; simp only
    rw [if_neg h1, if_neg h2, if_neg h3, if_pos h4]
  by_cases h5 : (ext.rmw_validate_full_topic_name topic).2 ≠ RMW_TOPIC_VALID
      ∧ qos.avoid_ros_namespace_conventions = false
  · left; unfold rmw_create_subscription; simp only
    rw [if_neg h1, if_neg h2, if_neg h3, if_neg h4, if_pos h5]
  cases hob : obtain_subscription_typesupport ext tss with
  | none =>
    left; unfold rmw_create_subscription; simp only
    rw [if_neg h1, if_neg h2, if_neg h3, if_neg h4, if_neg h5, hob]
  | some h =>
  by_cases h6 : ext.allocate 0 = false
  · left; unfold rmw_create_subscription; simp only
    rw [if_neg h1, if_neg h2, if_neg h3, if_neg h4, if_neg h5, hob]
    simp only; rw [if_pos h6]
  by_cases h7 : ext.allocate 1 = false
  · left; unfold rmw_create_subscription; simp only
    rw [if_neg h1, if_neg h2, if_neg h3, if_neg h4, if_neg h5, hob]
    simp only; rw [if_neg h6, if_pos h7]
  by_cases h8 : ext.allocate 2 = false
  · left; unfold rmw_create_subscription; simp only
    rw [if_neg h1, if_neg h2, if_neg h3, if_neg h4, if_neg h5, hob]
    simp only; rw [if_neg h6, if_neg h7, if_pos h8]
  by_cases h9 : ext.allocate 3 = false
  · left; unfold rmw_create_subscription; simp only
    rw [if_neg h1, if_neg h2, if_neg h3, if_neg h4, if_neg h5, hob]
    simp only; rw [if_neg h6, if_neg h7, if_neg h8, if_pos h9]
  have hacc : topic_name_accepted ext.toExternals topic qos := by
    refine ⟨h2, not_not.mp h4, ?_⟩
    by_cases hv : (ext.rmw_validate_full_topic_name topic).2 = RMW_TOPIC_VALID
    · exact Or.inl hv
    · right
      cases ha : qos.avoid_ros_namespace_conventions with
      | true => rfl
      | false => exact absurd ⟨hv, ha⟩ h5
  right
  unfold rmw_create_subscription; simp only
  rw [if_neg h1, if_neg h2, if_neg h3, if_neg h4, if_neg h5, hob]
  simp only; rw [if_neg h6, if_neg h7, if_neg h8, if_neg h9]
  cases hf : topic_find w.zn_topic_to_sub_data topic with
  | none =>
    exact ⟨topic, qos, _, rfl, rfl, hacc, rfl, rfl, rfl, rfl, rfl,
      Or.inl ⟨hf, rfl, rfl, rfl⟩⟩
  | some v =>
    exact ⟨topic, qos, _, rfl, rfl, hacc, rfl, rfl, rfl, rfl, rfl,
      Or.inr ⟨by rw [hf]; simp, rfl, rfl, rfl⟩⟩

/-- When every other step succeeds, an accepted topic name yields a subscription. -/
theorem rmw_create_subscription_accepts (ext : SubscriptionExternals) (n : rmw_node_t)
    (tss : TypeSupports) (topic : String) (qos : rmw_qos_profile_t)
    (opts : rmw_subscription_options_t) (w : SubscriptionWorld)
    (h : rosidl_message_type_support_t)
    (hn : n.implementation_identifier = eclipse_zenoh_identifier)
    (hq : ext.is_valid_qos qos = true)
    (hob : obtain_subscription_typesupport ext tss = some h)
    (h0 : ext.allocate 0 = true) (h1 : ext.allocate 1 = true) (h2 : ext.allocate 2 = true)
    (h3 : ext.allocate 3 = true)
    (hacc : topic_name_accepted ext.toExternals topic qos) :
    (rmw_create_subscription ext (some n) (some tss) (some topic) (some qos) (some opts) w).1
      ≠ none := by
  obtain ⟨a1, a2, a3⟩ := hacc
  have h5 : ¬ ((ext.rmw_validate_full_topic_name topic).2 ≠ RMW_TOPIC_VALID
      ∧ qos.avoid_ros_namespace_conventions = false) := by
    rintro ⟨b1, b2⟩
    rcases a3 with a3 | a3
    · exact b1 a3
    · rw [a3] at b2; simp at b2
  unfold rmw_create_subscription
  simp only
  rw [if_neg (not_not.mpr hn), if_neg a1, if_neg (by simp [hq]), if_neg (not_not.mpr a2),
    if_neg h5, hob]
  simp only
  rw [if_neg (by simp [h0]), if_neg (by simp [h1]), if_neg (by simp [h2]),
    if_neg (by simp [h3])]
  cases topic_find w.zn_topic_to_sub_data topic <;> simp

/-- C15 fails on the code: the publisher handle carries the identifier of the
type support it was created from ("rosidl_typesupport_introspection_c" here),
not the identifier `rmw_get_implementation_identifier()` returns, whereas the
subscription handle created with the same arguments carries the latter. -/
theorem publisher_identifier_is_not_the_implementation_identifier :
    (rmw_create_publisher exampleExternals (some exampleNode) (some exampleTypeSupports_c)
      (some "/chatter") (some ⟨10, false⟩) (some ⟨0⟩) emptyWorld).1.map
        (fun p => p.implementation_identifier) = some "rosidl_typesupport_introspection_c" ∧
    rmw_get_implementation_identifier = "rmw_zenoh_pico_dynamic_cpp" ∧
    (rmw_create_subscription exampleSubscriptionExternals (some exampleNode)
      (some exampleTypeSupports_c) (some "/chatter") (some ⟨10, false⟩) (some ⟨0, false⟩)
      (emptySubscriptionWorld 0)).1.map
        (fun s => s.implementation_identifier) = some rmw_get_implementation_identifier := by
  decide

theorem topic_find_eq_none_iff (m : List (String × List Nat)) (key : String) :
    topic_find m key = none ↔ key ∉ m.map Prod.fst := by
  induction m with
  | nil => simp [topic_find]
  | cons e rest ih =>
    obtain ⟨k, v⟩ := e
    by_cases hk : k = key
    · simp [topic_find, hk]
    · have hk' : ¬ key = k := fun h => hk h.symm
      simp [topic_find, hk, hk', ih]

theorem topic_push_back_keys (m : List (String × List Nat)) (key : String) (sub : Nat) :
    (topic_push_back m key sub).map Prod.fst = m.map Prod.fst := by
  induction m with
  | nil => rfl
  | cons e rest ih =>
    obtain ⟨k, v⟩ := e
    by_cases hk : k = key
    · simp [topic_push_back, hk]
    · simp [topic_push_back, hk, ih]

/-- One call keeps the declared topics equal to the keys of the topic map and
free of repetitions, and declares the topic exactly when it returns a
subscription whose topic was not declared before. -/
theorem rmw_create_subscription_declares (ext : SubscriptionExternals) (a : SubscriptionArgs)
    (w : SubscriptionWorld) (hkeys : w.declared = w.zn_topic_to_sub_data.map Prod.fst)
    (hnd : w.declared.Nodup) :
    (rmw_create_subscription ext a.node a.type_supports a.topic_name a.qos_profile
        a.subscription_options w).2.declared =
      (rmw_create_subscription ext a.node a.type_supports a.topic_name a.qos_profile
        a.subscription_options w).2.zn_topic_to_sub_data.map Prod.fst ∧
    (rmw_create_subscription ext a.node a.type_supports a.topic_name a.qos_profile
        a.subscription_options w).2.declared.Nodup ∧
    ((rmw_create_subscription ext a.node a.type_supports a.topic_name a.qos_profile
        a.subscription_options w).1 = none →
      (rmw_create_subscription ext a.node a.type_supports a.topic_name a.qos_profile
        a.subscription_options w).2 = w) ∧
    (∀ s, (rmw_create_subscription ext a.node a.type_supports a.topic_name a.qos_profile
        a.subscription_options w).1 = some s →
      (s.topic_name ∉ w.declared →
        (rmw_create_subscription ext a.node a.type_supports a.topic_name a.qos_profile
          a.subscription_options w).2.declared = w.declared ++ [s.topic_name] ∧
        s.data.zn_subscriber_ = some (ext.zn_declare_subscriber s.topic_name)) ∧
      (s.topic_name ∈ w.declared →
        (rmw_create_subscription ext a.node a.type_supports a.topic_name a.qos_profile
          a.subscription_options w).2.declared = w.declared ∧
        s.data.zn_subscriber_ = none)) := by
  rcases rmw_create_subscription_cases ext a.node a.type_supports a.topic_name a.qos_profile
    a.subscription_options w with hc | ⟨topic, qos, s, _, _, _, hs, ht, _, _, _, hcase⟩
  · rw [hc]
    exact ⟨hkeys, hnd, fun _ => rfl, fun s hs => by simp at hs⟩
  · rcases hcase with ⟨hf, hz, hd, hm⟩ | ⟨hf, hz, hd, hm⟩
    · have hnot : topic ∉ w.declared := by
        rw [hkeys]; exact (topic_find_eq_none_iff _ _).mp hf
      refine ⟨?_, ?_, ?_, ?_⟩
      · rw [hd, hm, hkeys]; simp
      · rw [hd, List.nodup_append]
        refine ⟨hnd, by simp, ?_⟩
        intro x hx hx'
        simp only [List.mem_singleton] at hx'
        subst hx'
        exact hnot hx
      · intro hn; rw [hs] at hn; simp at hn
      · intro s' hs'
        rw [hs] at hs'
        simp only [Option.some.injEq] at hs'
        subst hs'
        rw [ht]
        exact ⟨fun _ => ⟨hd, hz⟩, fun hin => absurd hin hnot⟩
    · have hin : topic ∈ w.declared := by
        rw [hkeys]
        by_contra hcon
        exact hf ((topic_find_eq_none_iff _ _).mpr hcon)
      refine ⟨?_, ?_, ?_, ?_⟩
      · rw [hd, hm, topic_push_back_keys]; exact hkeys
      · rw [hd]; exact hnd
      · intro hn; rw [hs] at hn; simp at hn
      · intro s' hs'
        rw [hs] at hs'
        simp only [Option.some.injEq] at hs'
        subst hs'
        rw [ht]
        exact ⟨fun hnot => absurd hin hnot, fun _ => ⟨hd, hz⟩⟩

/-- Over a sequence of calls the declared topics stay the keys of the topic
map, without repetitions, and are those declared before together with the
topics of the subscriptions returned. -/
theorem create_subscriptions_declares (ext : SubscriptionExternals)
    (args : List SubscriptionArgs) : ∀ w : SubscriptionWorld,
    w.declared = w.zn_topic_to_sub_data.map Prod.fst → w.declared.Nodup →
    (create_subscriptions ext args w).2.declared =
      (create_subscriptions ext args w).2.zn_topic_to_sub_data.map Prod.fst ∧
    (create_subscriptions ext args w).2.declared.Nodup ∧
    ∀ t, t ∈ (create_subscriptions ext args w).2.declared ↔
      t ∈ w.declared ∨ ∃ s, some s ∈ (create_subscriptions ext args w).1 ∧ s.topic_name = t := by
  induction args with
  | nil =>
    intro w hkeys hnd
    exact ⟨hkeys, hnd, fun t => by simp [create_subscriptions]⟩
  | cons a rest ih =>
    intro w hkeys hnd
    obtain ⟨k1, n1, hfail, hsucc⟩ := rmw_create_subscription_declares ext a w hkeys hnd
    obtain ⟨k2, n2, hmem⟩ := ih _ k1 n1
    simp only [create_subscriptions]
    refine ⟨k2, n2, ?_⟩
    intro t
    rw [hmem t]
    cases hr : (rmw_create_subscription ext a.node a.type_supports a.topic_name a.qos_profile
        a.subscription_options w).1 with
    | none =>
      rw [hfail hr]
      simp
    | some s =>
      obtain ⟨hnew, hold⟩ := hsucc s hr
      by_cases hin : s.topic_name ∈ w.declared
      · rw [(hold hin).1]
        constructor
        · rintro (h | ⟨s', hs', ht⟩)
          · exact Or.inl h
          · exact Or.inr ⟨s', List.mem_cons_of_mem _ hs', ht⟩
        · rintro (h | ⟨s', hs', ht⟩)
          · exact Or.inl h
          · simp only [List.mem_cons, Option.some.injEq] at hs'
            rcases hs' with hs' | hs'
            · subst hs'; subst ht; exact Or.inl hin
            · exact Or.inr ⟨s', hs', ht⟩
      · rw [(hnew hin).1]
        constructor
        · rintro (h | ⟨s', hs', ht⟩)
          · simp only [List.mem_append, List.mem_singleton] at h
            rcases h with h | h
            · exact Or.inl h
            · exact Or.inr ⟨s, List.mem_cons_self _ _, h.symm⟩
          · exact Or.inr ⟨s', List.mem_cons_of_mem _ hs', ht⟩
        · rintro (h | ⟨s', hs', ht⟩)
          · exact Or.inl (List.mem_append_left _ h)
          · simp only [List.mem_cons, Option.some.injEq] at hs'
            rcases hs' with hs' | hs'
            · subst hs'; subst ht
              exact Or.inl (List.mem_append_right _ (List.mem_singleton_self _))
            · exact Or.inr ⟨s', hs', ht⟩

/-- C16: a Zenoh subscriber is declared once per topic.  Over any sequence of
`rmw_create_subscription` calls starting from an empty topic map,
`zn_declare_subscriber` is invoked exactly once for each topic for which a
subscription was returned and never for another topic; a call that returns a
subscription invokes it when no earlier call returned a subscription for the
same topic, and does not invoke it otherwise. -/
theorem subscriber_declared_once_per_topic (ext : SubscriptionExternals)
    (args : List SubscriptionArgs) (w0 : SubscriptionWorld)
    (hmap : w0.zn_topic_to_sub_data = []) (hdecl : w0.declared = []) :
    (∀ t, (∃ s, some s ∈ (create_subscriptions ext args w0).1 ∧ s.topic_name = t) →
      (create_subscriptions ext args w0).2.declared.count t = 1) ∧
    (∀ t, (¬ ∃ s, some s ∈ (create_subscriptions ext args w0).1 ∧ s.topic_name = t) →
      (create_subscriptions ext args w0).2.declared.count t = 0) ∧
    (∀ (pre post : List SubscriptionArgs) (a : SubscriptionArgs) (s : rmw_subscription_t),
      args = pre ++ a :: post →
      (rmw_create_subscription ext a.node a.type_supports a.topic_name a.qos_profile
        a.subscription_options (create_subscriptions ext pre w0).2).1 = some s →
      ((∀ s', some s' ∈ (create_subscriptions ext pre w0).1 → s'.topic_name ≠ s.topic_name) →
        (rmw_create_subscription ext a.node a.type_supports a.topic_name a.qos_profile
          a.subscription_options (create_subscriptions ext pre w0).2).2.declared =
          (create_subscriptions ext pre w0).2.declared ++ [s.topic_name] ∧
        s.data.zn_subscriber_ = some (ext.zn_declare_subscriber s.topic_name)) ∧
      ((∃ s', some s' ∈ (create_subscriptions ext pre w0).1 ∧ s'.topic_name = s.topic_name) →
        (rmw_create_subscription ext a.node a.type_supports a.topic_name a.qos_profile
          a.subscription_options (create_subscriptions ext pre w0).2).2.declared =
          (create_subscriptions ext pre w0).2.declared ∧
        s.data.zn_subscriber_ = none)) := by
  have hkeys : w0.declared = w0.zn_topic_to_sub_data.map Prod.fst := by rw [hmap, hdecl]; rfl
  have hnd : w0.declared.Nodup := by rw [hdecl]; exact List.nodup_nil
  obtain ⟨_, n1, hmem⟩ := create_subscriptions_declares ext args w0 hkeys hnd
  refine ⟨?_, ?_, ?_⟩
  · intro t ht
    exact List.count_eq_one_of_mem n1 ((hmem t).mpr (Or.inr ht))
  · intro t ht
    apply List.count_eq_zero_of_not_mem
    intro hin
    rcases (hmem t).mp hin with h | h
    · rw [hdecl] at h; simp at h
    · exact ht h
  · intro pre post a s _ hs
    obtain ⟨k2, n2, hmem2⟩ := create_subscriptions_declares ext pre w0 hkeys hnd
    obtain ⟨_, _, _, hsucc⟩ := rmw_create_subscription_declares ext a _ k2 n2
    obtain ⟨hnew, hold⟩ := hsucc s hs
    refine ⟨?_, ?_⟩
    · intro hfirst
      apply hnew
      intro hin
      rcases (hmem2 _).mp hin with h | ⟨s', hs', ht⟩
      · rw [hdecl] at h; simp at h
      · exact hfirst s' hs' ht
    · intro hlater
      exact hold ((hmem2 _).mpr (Or.inr hlater))

theorem subscriber_declared_once_per_topic_witness :
    (create_subscriptions exampleSubscriptionExternals
      [exampleSubscriptionArgs "/a", exampleSubscriptionArgs "/b", exampleSubscriptionArgs "/a"]
      (emptySubscriptionWorld 0)).2.declared.count "/a" = 1 :=
  (subscriber_declared_once_per_topic exampleSubscriptionExternals
    [exampleSubscriptionArgs "/a", exampleSubscriptionArgs "/b", exampleSubscriptionArgs "/a"]
    (emptySubscriptionWorld 0) rfl rfl).1 "/a"
    ⟨⟨"rmw_zenoh_pico_dynamic_cpp", ⟨0, false⟩, false, "/a",
        ⟨"rosidl_typesupport_introspection_c", some ⟨"", "Foo"⟩, 0, 2, 10, none⟩⟩,
      by decide, rfl⟩

theorem create_subscriptions_ids (ext : SubscriptionExternals) (args : List SubscriptionArgs) :
    ∀ w : SubscriptionWorld,
    w.subscription_id_counter + ((create_subscriptions ext args w).1.filterMap id).length
      ≤ ext.counter_values →
    ((create_subscriptions ext args w).1.filterMap id).map
        (fun s => s.data.subscription_id_) =
      List.range' w.subscription_id_counter
        ((create_subscriptions ext args w).1.filterMap id).length := by
  induction args with
  | nil => intro w _; rfl
  | cons a rest ih =>
    intro w hw
    simp only [create_subscriptions] at hw ⊢
    rcases rmw_create_subscription_cases ext a.node a.type_supports a.topic_name a.qos_profile
      a.subscription_options w with hc | ⟨topic, qos, s, _, _, _, hs, _, _, hid, hctr, _⟩
    · rw [hc] at hw ⊢
      simp only [List.filterMap_cons, id_eq] at hw ⊢
      exact ih w hw
    · rw [hs] at hw ⊢
      simp only [List.filterMap_cons, id_eq, List.length_cons, List.map_cons] at hw ⊢
      rw [List.range'_succ, hid]
      congr 1
      cases hk : ((create_subscriptions ext rest
          (rmw_create_subscription ext a.node a.type_supports a.topic_name a.qos_profile
            a.subscription_options w).2).1.filterMap id).length with
      | zero =>
        rw [List.length_eq_zero] at hk
        rw [hk]
        rfl
      | succ k =>
        rw [hk] at hw
        have hlt : w.subscription_id_counter + 1 < ext.counter_values := by omega
        have hc' : (rmw_create_subscription ext a.node a.type_supports a.topic_name
            a.qos_profile a.subscription_options w).2.subscription_id_counter =
            w.subscription_id_counter + 1 := by
          rw [hctr, Nat.mod_eq_of_lt hlt]
        have := ih (rmw_create_subscription ext a.node a.type_supports a.topic_name
          a.qos_profile a.subscription_options w).2 (by rw [hc', hk]; omega)
        rw [hk, hc'] at this
        exact this

/-- C17: subscription ids are unique.  A call that returns a subscription
gives it the current value of `subscription_id_counter` and advances the
counter by one (modulo the number of counter values); a call that returns
`nullptr` leaves the counter alone.  Hence, as long as the counter does not
wrap around, the subscriptions returned by a sequence of calls carry the ids
`c0, c0 + 1, ...` in order (the k-th, counted from 0, has id `c0 + k`), and no
two of them share an id. -/
theorem subscription_ids_unique (ext : SubscriptionExternals) (args : List SubscriptionArgs)
    (w0 : SubscriptionWorld)
    (hno_wrap : w0.subscription_id_counter +
      ((create_subscriptions ext args w0).1.filterMap id).length ≤ ext.counter_values) :
    (∀ (a : SubscriptionArgs) (w : SubscriptionWorld),
      ((rmw_create_subscription ext a.node a.type_supports a.topic_name a.qos_profile
          a.subscription_options w).1 = none →
        (rmw_create_subscription ext a.node a.type_supports a.topic_name a.qos_profile
          a.subscription_options w).2 = w) ∧
      (∀ s, (rmw_create_subscription ext a.node a.type_supports a.topic_name a.qos_profile
          a.subscription_options w).1 = some s →
        s.data.subscription_id_ = w.subscription_id_counter ∧
        (rmw_create_subscription ext a.node a.type_supports a.topic_name a.qos_profile
          a.subscription_options w).2.subscription_id_counter =
          (w.subscription_id_counter + 1) % ext.counter_values)) ∧
    ((create_subscriptions ext args w0).1.filterMap id).map
        (fun s => s.data.subscription_id_) =
      List.range' w0.subscription_id_counter
        ((create_subscriptions ext args w0).1.filterMap id).length ∧
    (∀ k, k < ((create_subscriptions ext args w0).1.filterMap id).length →
      (((create_subscriptions ext args w0).1.filterMap id).map
        (fun s => s.data.subscription_id_))[k]? = some (w0.subscription_id_counter + k)) ∧
    (((create_subscriptions ext args w0).1.filterMap id).map
        (fun s => s.data.subscription_id_)).Nodup := by
  have hids := create_subscriptions_ids ext args w0 hno_wrap
  refine ⟨?_, hids, ?_, ?_⟩
  · intro a w
    rcases rmw_create_subscription_cases ext a.node a.type_supports a.topic_name a.qos_profile
      a.subscription_options w with hc | ⟨topic, qos, s, _, _, _, hs, _, _, hid, hctr, _⟩
    · rw [hc]
      exact ⟨fun _ => rfl, fun s hs => by simp at hs⟩
    · refine ⟨fun hn => by rw [hs] at hn; simp at hn, ?_⟩
      intro s' hs'
      rw [hs] at hs'
      simp only [Option.some.injEq] at hs'
      subst hs'
      exact ⟨hid, hctr⟩
  · intro k hk
    rw [hids, List.getElem?_range' _ _ hk]
    simp
  · rw [hids]
    exact List.nodup_range' _ _

theorem subscription_ids_unique_witness :
    ((create_subscriptions exampleSubscriptionExternals
      [exampleSubscriptionArgs "/a", exampleSubscriptionArgs "", exampleSubscriptionArgs "/a"]
      (emptySubscriptionWorld 7)).1.filterMap id).map (fun s => s.data.subscription_id_) =
      List.range' 7 2 :=
  (subscription_ids_unique exampleSubscriptionExternals
    [exampleSubscriptionArgs "/a", exampleSubscriptionArgs "", exampleSubscriptionArgs "/a"]
    (emptySubscriptionWorld 7) (by decide)).2.1

/-- C18: `rmw_create_subscription` and `rmw_create_publisher` apply the same
topic-name check.  Either returns a handle only for a topic name that is
accepted, that is non-empty, validated with `RMW_RET_OK`, and either
`RMW_TOPIC_VALID` or with `avoid_ros_namespace_conventions` set; when every
other step succeeds an accepted name yields a handle from either; and an
empty name makes both return `nullptr` whatever the QoS profile says. -/
theorem topic_name_check_shared (ext : SubscriptionExternals) :
    (∀ node type_supports topic_name qos_profile publisher_options w p,
      (rmw_create_publisher ext.toExternals node type_supports topic_name qos_profile
        publisher_options w).1 = some p →
      ∃ topic qos, topic_name = some topic ∧ qos_profile = some qos ∧
        topic_name_accepted ext.toExternals topic qos) ∧
    (∀ node type_supports topic_name qos_profile subscription_options w s,
      (rmw_create_subscription ext node type_supports topic_name qos_profile
        subscription_options w).1 = some s →
      ∃ topic qos, topic_name = some topic ∧ qos_profile = some qos ∧
        topic_name_accepted ext.toExternals topic qos) ∧
    (∀ (n : rmw_node_t) (tss : TypeSupports) (topic : String) (qos : rmw_qos_profile_t)
        (opts : rmw_publisher_options_t) (w : World) (h : rosidl_message_type_support_t)
        (ts : TypeSupportObject),
      n.implementation_identifier = eclipse_zenoh_identifier →
      ext.is_valid_qos qos = true → obtain_typesupport tss = some h →
      ext.allocate 0 = true → ext.allocate 1 = true → ext.allocate 2 = true →
      (get_or_create_type_support n.id h.data h.typesupport_identifier w).1 = some ts →
      ((rmw_create_publisher ext.toExternals (some n) (some tss) (some topic) (some qos)
          (some opts) w).1 ≠ none ↔ topic_name_accepted ext.toExternals topic qos)) ∧
    (∀ (n : rmw_node_t) (tss : TypeSupports) (topic : String) (qos : rmw_qos_profile_t)
        (opts : rmw_subscription_options_t) (w : SubscriptionWorld)
        (h : rosidl_message_type_support_t),
      n.implementation_identifier = eclipse_zenoh_identifier →
      ext.is_valid_qos qos = true → obtain_subscription_typesupport ext tss = some h →
      ext.allocate 0 = true → ext.allocate 1 = true → ext.allocate 2 = true →
      ext.allocate 3 = true →
      ((rmw_create_subscription ext (some n) (some tss) (some topic) (some qos)
          (some opts) w).1 ≠ none ↔ topic_name_accepted ext.toExternals topic qos)) ∧
    (∀ node type_supports qos_profile publisher_options w,
      (rmw_create_publisher ext.toExternals node type_supports (some "") qos_profile
        publisher_options w).1 = none) ∧
    (∀ node type_supports qos_profile subscription_options w,
      (rmw_create_subscription ext node type_supports (some "") qos_profile
        subscription_options w).1 = none) := by
  have hpub : ∀ node type_supports topic_name qos_profile publisher_options w p,
      (rmw_create_publisher ext.toExternals node type_supports topic_name qos_profile
        publisher_options w).1 = some p →
      ∃ topic qos, topic_name = some topic ∧ qos_profile = some qos ∧
        topic_name_accepted ext.toExternals topic qos := by
    intro node tss topic_name qos opts w p hp
    obtain ⟨topic, q, _, _, ht, hq, _, _, hacc, _⟩ :=
      rmw_create_publisher_success ext.toExternals node tss topic_name qos opts w p hp
    exact ⟨topic, q, ht, hq, hacc⟩
  have hsub : ∀ node type_supports topic_name qos_profile subscription_options w s,
      (rmw_create_subscription ext node type_supports topic_name qos_profile
        subscription_options w).1 = some s →
      ∃ topic qos, topic_name = some topic ∧ qos_profile = some qos ∧
        topic_name_accepted ext.toExternals topic qos := by
    intro node tss topic_name qos opts w s hs
    rcases rmw_create_subscription_cases ext node tss topic_name qos opts w with
      hc | ⟨topic, q, s', ht, hq, hacc, _⟩
    · rw [hc] at hs; simp at hs
    · exact ⟨topic, q, ht, hq, hacc⟩
  refine ⟨hpub, hsub, ?_, ?_, ?_, ?_⟩
  · intro n tss topic qos opts w h ts hn hq hob h0 h1 h2 hg
    constructor
    · intro hne
      cases hr : (rmw_create_publisher ext.toExternals (some n) (some tss) (some topic)
          (some qos) (some opts) w).1 with
      | none => exact absurd hr hne
      | some p =>
        obtain ⟨t, q, ht, hq', hacc⟩ := hpub _ _ _ _ _ _ p hr
        simp only [Option.some.injEq] at ht hq'
        subst ht hq'
        exact hacc
    · exact rmw_create_publisher_accepts ext.toExternals n tss topic qos opts w h ts hn hq hob
        h0 h1 h2 hg
  · intro n tss topic qos opts w h hn hq hob h0 h1 h2 h3
    constructor
    · intro hne
      cases hr : (rmw_create_subscription ext (some n) (some tss) (some topic)
          (some qos) (some opts) w).1 with
      | none => exact absurd hr hne
      | some s =>
        obtain ⟨t, q, ht, hq', hacc⟩ := hsub _ _ _ _ _ _ s hr
        simp only [Option.some.injEq] at ht hq'
        subst ht hq'
        exact hacc
    · exact rmw_create_subscription_accepts ext n tss topic qos opts w h hn hq hob h0 h1 h2 h3
  · intro node tss qos opts w
    cases hr : (rmw_create_publisher ext.toExternals node tss (some "") qos opts w).1 with
    | none => rfl
    | some p =>
      obtain ⟨t, q, ht, _, hacc⟩ := hpub _ _ _ _ _ _ p hr
      simp only [Option.some.injEq] at ht
      subst ht
      exact absurd (by decide) hacc.1
  · intro node tss qos opts w
    cases hr : (rmw_create_subscription ext node tss (some "") qos opts w).1 with
    | none => rfl
    | some s =>
      obtain ⟨t, q, ht, _, hacc⟩ := hsub _ _ _ _ _ _ s hr
      simp only [Option.some.injEq] at ht
      subst ht
      exact absurd (by decide) hacc.1

theorem topic_name_check_shared_witness :
    (rmw_create_publisher exampleSubscriptionExternals_invalid_topic.toExternals
      (some exampleNode) (some exampleTypeSupports_c) (some "chatter") (some ⟨10, true⟩)
      (some ⟨0⟩) emptyWorld).1 ≠ none ∧
    (rmw_create_subscription exampleSubscriptionExternals_invalid_topic
      (some exampleNode) (some exampleTypeSupports_c) (some "") (some ⟨10, true⟩)
      (some ⟨0, false⟩) (emptySubscriptionWorld 0)).1 = none :=
  ⟨((topic_name_check_shared exampleSubscriptionExternals_invalid_topic).2.2.1 exampleNode
      exampleTypeSupports_c "chatter" ⟨10, true⟩ ⟨0⟩ emptyWorld
      ⟨"rosidl_typesupport_introspection_c", some ⟨"", "Foo"⟩⟩
      ⟨0, "dps_::Foo_", "rosidl_typesupport_introspection_c"⟩
      rfl rfl rfl rfl rfl rfl (by decide)).mpr
      ⟨by decide, rfl, Or.inr rfl⟩,
   (topic_name_check_shared exampleSubscriptionExternals_invalid_topic).2.2.2.2.2
      (some exampleNode) (some exampleTypeSupports_c) (some ⟨10, true⟩) (some ⟨0, false⟩)
      (emptySubscriptionWorld 0)⟩

end RmwZenoh
